import Mathlib

/-!
Verification of the `tac` three-address-code interpreter.

The development shallowly embeds the interpreter's Rust sources
(`src/value.rs`, `src/chunk.rs`, `src/token.rs`, `src/scanner.rs`,
`src/compiler.rs`, `src/vm.rs`) as executable Lean definitions and proves
properties of them.

Modelling conventions:
* `u64` payloads are `Nat` with explicit `% 2^64` where the Rust code wraps;
  `i64` payloads are `Int` with an explicit two's-complement wrap function.
* `f64` payloads are modelled as exact rationals (`Rat`).  No claim proved
  here depends on IEEE-754 rounding; the interpreter's zero-denominator
  guard rejects every division that could produce an infinity or NaN, and
  numeric literals are finite decimals.
* Rust `panic!`/`expect`/`assert!` sites are modelled either as `Option`
  results or with an explicit `crashed` flag; all are unreachable on the
  executions studied here.
* Rust `HashMap`s are modelled as association lists.  The compiler's
  `labels`, `pending_labels` and the chunk's `names_rev` maps are only used
  through single-key lookup and insert, for which an association list is an
  exact model; the one iteration over `pending_labels`
  (`update_pending_labels`) produces an order-independent result because the
  patched instruction indices of distinct entries are disjoint and the
  error branch is commented out in the source.
* Output (`print!`) is modelled as an accumulated list of written strings;
  diagnostics (`eprintln!`) as an accumulated list of structured records.
-/

namespace TAC

/-- Two's-complement wrap of a natural into `[0, 2^64)` (u64 wrapping ops). -/
def wrapU64 (n : Nat) : Nat := n % (2 ^ 64)

/-- Two's-complement wrap of an integer into `[-2^63, 2^63)` (i64 wrapping ops). -/
def wrapI64 (n : Int) : Int := (n + 2 ^ 63) % (2 ^ 64) - 2 ^ 63

/-- Truncation of a rational toward zero, used to model `f64 %`. -/
def ratTrunc (q : Rat) : Int := Int.tdiv q.num (Int.ofNat q.den)

/-- `Value` from `src/value.rs`: the tagged scalar manipulated by the VM. -/
inductive Value where
  | F64 (v : Rat)
  | U64 (v : Nat)
  | I64 (v : Int)
  | VBool (v : Bool)
  | VChar (v : Char)
  | Addr (v : Nat)
deriving DecidableEq, Repr

namespace Value

/-- `Value::type_info`. -/
def type_info : Value → String
  | F64 _ => "f64"
  | U64 _ => "u64"
  | I64 _ => "i64"
  | VBool _ => "bool"
  | VChar _ => "char"
  | Addr _ => "addr"

/-- `Value::is_numeric_zero`. -/
def is_numeric_zero : Value → Bool
  | F64 v => v == 0 || v == -0
  | I64 v => v == 0
  | U64 v => v == 0
  | _ => false

/-- The `Display` impl for `Value` (`print!` rendering).  The `F64` case is
rendered from the exact rational; no proved claim prints a float. -/
def display : Value → String
  | F64 v => toString v
  | U64 v => toString v
  | I64 v => toString v
  | VBool v => toString v
  | VChar v => String.mk [v]
  | Addr v => "addr(" ++ toString v ++ ")"

/-- Error string shared by the binary-operator type errors. -/
def binErr (op : String) (a b : Value) : String :=
  "Operator '" ++ op ++ "' not supported between values of type '" ++
    a.type_info ++ "' and '" ++ b.type_info ++ "'"

/-- `Value::arithmetic_negate` (modelled as value-in, value-out). -/
def arithmetic_negate : Value → Except String Value
  | F64 v => .ok (F64 (-v))
  | U64 _ => .error "It is not possible to negate a number of type u64"
  | I64 v => .ok (I64 (-v))
  | VBool _ => .error "It is not possible to arithmetically negate a boolean"
  | VChar _ => .error "It is not possible to negate a character"
  | Addr _ => .error "It is not possible to negate an address"

/-- `Value::logic_negate` (modelled as value-in, value-out). -/
def logic_negate : Value → Except String Value
  | VBool v => .ok (VBool (!v))
  | v => .error ("Operator '!' not supported for value of type " ++ v.type_info)

/-- `Value::lt`. -/
def lt : Value → Value → Except String Value
  | F64 a, F64 b => .ok (VBool (decide (a < b)))
  | U64 a, U64 b => .ok (VBool (decide (a < b)))
  | I64 a, I64 b => .ok (VBool (decide (a < b)))
  | VChar a, VChar b => .ok (VBool (decide (a < b)))
  | a, b => .error (binErr "<" a b)

/-- `Value::gt`. -/
def gt : Value → Value → Except String Value
  | F64 a, F64 b => .ok (VBool (decide (b < a)))
  | U64 a, U64 b => .ok (VBool (decide (b < a)))
  | I64 a, I64 b => .ok (VBool (decide (b < a)))
  | VChar a, VChar b => .ok (VBool (decide (b < a)))
  | a, b => .error (binErr ">" a b)

/-- `Value::eq`. -/
def eq : Value → Value → Except String Value
  | F64 a, F64 b => .ok (VBool (a == b))
  | U64 a, U64 b => .ok (VBool (a == b))
  | I64 a, I64 b => .ok (VBool (a == b))
  | VBool a, VBool b => .ok (VBool (a == b))
  | VChar a, VChar b => .ok (VBool (a == b))
  | a, b => .error (binErr "==" a b)

/-- `impl ops::Add for Value` (wrapping integer addition). -/
def add : Value → Value → Except String Value
  | F64 a, F64 b => .ok (F64 (a + b))
  | U64 a, U64 b => .ok (U64 (wrapU64 (a + b)))
  | I64 a, I64 b => .ok (I64 (wrapI64 (a + b)))
  | a, b => .error (binErr "+" a b)

/-- `impl ops::Sub for Value` (wrapping integer subtraction).  The u64 case
wraps the difference as two's complement, matching `u64::wrapping_sub`. -/
def sub : Value → Value → Except String Value
  | F64 a, F64 b => .ok (F64 (a - b))
  | U64 a, U64 b => .ok (U64 ((wrapI64 ((a : Int) - (b : Int))).toNat % (2 ^ 64)))
  | I64 a, I64 b => .ok (I64 (wrapI64 (a - b)))
  | a, b => .error (binErr "-" a b)

/-- `impl ops::Mul for Value` (wrapping integer multiplication). -/
def mul : Value → Value → Except String Value
  | F64 a, F64 b => .ok (F64 (a * b))
  | U64 a, U64 b => .ok (U64 (wrapU64 (a * b)))
  | I64 a, I64 b => .ok (I64 (wrapI64 (a * b)))
  | a, b => .error (binErr "*" a b)

/-- Does the guard `Value::F64(_) | Value::I64(_) | Value::U64(_)` of the
`Div`/`Rem` impls match the left operand? -/
def isDivLeft : Value → Bool
  | F64 _ => true
  | I64 _ => true
  | U64 _ => true
  | _ => false

/-- `impl ops::Div for Value`.  The first arm is the zero-denominator guard.
Rust's `i64` division panics on `i64::MIN / -1`; that input satisfies
neither hypothesis of any claim proved here and is modelled as wrapped. -/
def div (a b : Value) : Except String Value :=
  if a.isDivLeft && b.is_numeric_zero then .error "Division by 0"
  else
    match a, b with
    | F64 a, F64 b => .ok (F64 (a / b))
    | U64 a, U64 b => .ok (U64 (a / b))
    | I64 a, I64 b => .ok (I64 (wrapI64 (Int.tdiv a b)))
    | a, b => .error (binErr "/" a b)

/-- `impl ops::Rem for Value`.  The `F64` case models Rust's `%` (fmod)
on the exact rationals. -/
def rem (a b : Value) : Except String Value :=
  if a.isDivLeft && b.is_numeric_zero then .error "Division by 0"
  else
    match a, b with
    | F64 a, F64 b => .ok (F64 (a - b * (ratTrunc (a / b) : Rat)))
    | U64 a, U64 b => .ok (U64 (a % b))
    | I64 a, I64 b => .ok (I64 (Int.tmod a b))
    | a, b => .error (binErr "%" a b)

/-- `u64 -> u32` conversion used for shift counts:
`try_into().unwrap_or(u32::MAX)`. -/
def shiftCount (b : Nat) : Nat :=
  if b < 2 ^ 32 then b else 2 ^ 32 - 1

/-- `impl ops::Shl for Value`.  `wrapping_shl` masks the count with 63;
a negative i64 count delegates to the right shift (and vice versa). -/
def shl (a b : Value) : Except String Value :=
  match a, b with
  | U64 a, U64 b => .ok (U64 (wrapU64 (a <<< (shiftCount b % 64))))
  | U64 a, I64 b =>
    if b < 0 then .ok (U64 (a >>> (shiftCount (-b).toNat % 64)))
    else .ok (U64 (wrapU64 (a <<< (shiftCount b.toNat % 64))))
  | I64 a, I64 b =>
    if b < 0 then .ok (I64 (Int.fdiv a (2 ^ (shiftCount (-b).toNat % 64))))
    else .ok (I64 (wrapI64 (a * 2 ^ (shiftCount b.toNat % 64))))
  | a, b => .error (binErr "<<" a b)

/-- `impl ops::Shr for Value` (arithmetic shift for i64).  Note the source's
error string for `Shr` also says `'<<'`. -/
def shr (a b : Value) : Except String Value :=
  match a, b with
  | U64 a, U64 b => .ok (U64 (a >>> (shiftCount b % 64)))
  | U64 a, I64 b =>
    if b < 0 then .ok (U64 (wrapU64 (a <<< (shiftCount (-b).toNat % 64))))
    else .ok (U64 (a >>> (shiftCount b.toNat % 64)))
  | I64 a, I64 b =>
    if b < 0 then .ok (I64 (wrapI64 (a * 2 ^ (shiftCount (-b).toNat % 64))))
    else .ok (I64 (Int.fdiv a (2 ^ (shiftCount b.toNat % 64))))
  | a, b => .error (binErr "<<" a b)

end Value


/-- `Instruction` from `src/chunk.rs`.  The `u16` operands are modelled as
`Nat`; every operand written by the compiler is checked against the u16
bound at interning time, and `patch_jump` applies the `as u16` cast. -/
inductive Instr where
  | Return
  | Add
  | Subtract
  | Multiply
  | Divide
  | Modulo
  | ShiftLeft
  | ShiftRight
  | Negate
  | Call (op : Nat)
  | CTrue
  | CFalse
  | Not
  | Equal
  | Greater
  | Less
  | GetVar (op : Nat)
  | GetOrCreateVar (op : Nat)
  | Assign
  | JumpIf (op : Nat)
  | Goto (op : Nat)
  | Pop
  | Print (nl : Bool)
  | Constant (op : Nat)
  | Halt
deriving DecidableEq, Repr

/-- `LineStart` from `src/chunk.rs`: one run of the run-length line map. -/
structure LineStart where
  offset : Nat
  line : Nat
deriving DecidableEq, Repr

/-- Association-list lookup with decidable key equality; exact model of the
single-key `HashMap::get` used by the chunk and the compiler. -/
def assocFind {α β : Type} [DecidableEq α] : List (α × β) → α → Option β
  | [], _ => none
  | (k, v) :: rest, key => if k = key then some v else assocFind rest key

/-- `Chunk` from `src/chunk.rs`.  `names_rev` is the reverse map kept in
sync with `names` for O(1) de-duplication. -/
structure Chunk where
  code : List Instr
  constants : List Value
  names : List (List Char)
  names_rev : List (List Char × Nat)
  lines : List LineStart
deriving DecidableEq, Repr

namespace Chunk

/-- `Chunk::new` / `Chunk::default`. -/
def new : Chunk := ⟨[], [], [], [], []⟩

/-- `Chunk::write`.  Returns `none` when the source's
`assert!(line_start.line <= line)` would fail (never on compiler output). -/
def write (c : Chunk) (i : Instr) (line : Nat) : Option (Chunk × Nat) :=
  match c.lines.getLast? with
  | some lineStart =>
    if lineStart.line ≤ line then
      let index := c.code.length
      let newLines :=
        if lineStart.line = line then c.lines
        else c.lines ++ [LineStart.mk index line]
      some ({ c with code := c.code ++ [i], lines := newLines }, index)
    else none
  | none =>
    let index := c.code.length
    some ({ c with code := c.code ++ [i],
                   lines := c.lines ++ [LineStart.mk index line] }, index)

/-- `Chunk::add_constant`: u16-bounded append to the constant pool. -/
def add_constant (c : Chunk) (v : Value) : Except String Nat × Chunk :=
  let index := c.constants.length
  if index < 2 ^ 16 then
    (.ok index, { c with constants := c.constants ++ [v] })
  else
    (.error "Could not add constant, reached limit of u16 max size", c)

/-- `Chunk::get_constant` (`none` models the source's `expect` panic). -/
def get_constant (c : Chunk) (addr : Nat) : Option Value :=
  c.constants.get? addr

/-- `Chunk::add_name`: de-duplicating, u16-bounded append to the name pool. -/
def add_name (c : Chunk) (name : List Char) : Except String Nat × Chunk :=
  match assocFind c.names_rev name with
  | some addr => (.ok addr, c)
  | none =>
    let index := c.names.length
    if index < 2 ^ 16 then
      (.ok index, { c with names := c.names ++ [name],
                            names_rev := (name, index) :: c.names_rev })
    else
      (.error "Could not add name, reached limit of u16 max size", c)

/-- `Chunk::get_name` (`none` models the source's `expect` panic). -/
def get_name (c : Chunk) (addr : Nat) : Option (List Char) :=
  c.names.get? addr

/-- The binary-search loop of `Chunk::get_line`, with fuel.  The source
breaks out of the search as soon as `mid == 0` reports a hit, and would
underflow `mid - 1` otherwise; both exits are modelled exactly.  `none`
models a Rust panic/abort (empty `lines`, underflow, bad index) or fuel
exhaustion; neither occurs on chunks built through `write`. -/
def get_line_loop : Nat → List LineStart → Nat → Nat → Nat → Nat → Option Nat
  | 0, _, _, _, _, _ => none
  | fuel + 1, lines, idx, left, right, line =>
    if left ≤ right then
      match lines.get? ((left + right) / 2) with
      | some midLine =>
        if midLine.offset ≤ idx then
          if (left + right) / 2 = 0 then some midLine.line
          else get_line_loop fuel lines idx ((left + right) / 2 + 1) right midLine.line
        else
          if (left + right) / 2 = 0 then none
          else get_line_loop fuel lines idx left ((left + right) / 2 - 1) line
      | none => none
    else some line

/-- `Chunk::get_line`: binary search of the run-length line map.  The two
diagnostic `eprintln!`s for out-of-range indices have no semantic effect
and are omitted. -/
def get_line (c : Chunk) (idx : Nat) : Option Nat :=
  match c.lines.getLast? with
  | none => none
  | some last => get_line_loop (c.lines.length + 2) c.lines idx 0 (c.lines.length - 1) last.line

/-- Modelled from the spec (§4.2): "`get_line(instruction_index) → line`:
binary search in `lines` for the greatest entry whose offset is ≤
instruction_index; returns that entry's line."  Stated directly as a scan
for the greatest such entry, for comparison with `get_line` above. -/
def get_line_spec (c : Chunk) (idx : Nat) : Option Nat :=
  (c.lines.filter (fun ls => ls.offset ≤ idx)).getLast?.map LineStart.line

end Chunk



/-- `TokenKind` from `src/token.rs`.  `True`/`False` are embedded as
`KTrue`/`KFalse` and `String`/`Char` as `KString`/`KChar` to avoid clashes
with the core types of the same name. -/
inductive TokenKind where
  | LeftParen
  | RightParen
  | LeftBrace
  | RightBrace
  | LeftBracket
  | RightBracket
  | Comma
  | Colon
  | Dot
  | Minus
  | Plus
  | Semicolon
  | Slash
  | Star
  | Ampersand
  | Percent
  | NewLine
  | Bang
  | BangEqual
  | Equal
  | EqualEqual
  | Greater
  | GreaterEqual
  | Less
  | LessEqual
  | ShiftLeft
  | ShiftRight
  | Identifier
  | KString
  | Number
  | KChar
  | If
  | IfFalse
  | Goto
  | Param
  | Call
  | Return
  | KTrue
  | KFalse
  | Print
  | PrintLn
  | Scan
  | Halt
  | U64KW
  | I64KW
  | F64KW
  | CharKW
  | BoolKW
  | Error
  | Eof
deriving DecidableEq, Repr

/-- `Token` from `src/token.rs`; the lexeme slice is a list of chars. -/
structure Token where
  kind : TokenKind
  lexeme : List Char
  line : Nat
deriving DecidableEq, Repr

/-- `Token::synthetic("")`. -/
def Token.synthetic : Token := ⟨.Error, [], 0⟩

/-- Scanner state (`src/scanner.rs`): `source_chars` is the char list,
`start`/`current` are char indices, `line` the 1-based line counter. -/
structure ScState where
  src : List Char
  start : Nat
  current : Nat
  line : Nat
deriving DecidableEq, Repr

namespace Scanner

/-- `Scanner::new`. -/
def new (source : List Char) : ScState := ⟨source, 0, 0, 1⟩

/-- `Scanner::peek`. -/
def peek (s : ScState) : Option Char := s.src.get? s.current

/-- `Scanner::is_at_end`. -/
def is_at_end (s : ScState) : Bool := s.current = s.src.length

/-- `Scanner::advance`.  All call sites in the source are guarded by a
successful peek; the unguarded case (a Rust panic) is modelled as a no-op. -/
def advance (s : ScState) : ScState :=
  match peek s with
  | some c =>
    { s with current := s.current + 1,
             line := if c = '\n' then s.line + 1 else s.line }
  | none => s

/-- `Scanner::match_advance`. -/
def match_advance (expected : Char) (s : ScState) : Bool × ScState :=
  match peek s with
  | some c => if c = expected then (true, advance s) else (false, s)
  | none => (false, s)

/-- `while self.match_pred_advance(pred) {}` — fueled predicate loop. -/
def advance_while : Nat → (Char → Bool) → ScState → ScState
  | 0, _, s => s
  | fuel + 1, pred, s =>
    match peek s with
    | some c => if pred c then advance_while fuel pred (advance s) else s
    | none => s

/-- The char-counting loop of `Scanner::char`. -/
def advance_while_count : Nat → (Char → Bool) → ScState → Nat → ScState × Nat
  | 0, _, s, count => (s, count)
  | fuel + 1, pred, s, count =>
    match peek s with
    | some c =>
      if pred c then advance_while_count fuel pred (advance s) (count + 1) else (s, count)
    | none => (s, count)

/-- `Scanner::lexeme`: the chars between `start` and `current`. -/
def lexeme (s : ScState) : List Char := (s.src.take s.current).drop s.start

/-- `Scanner::make_token`. -/
def make_token (kind : TokenKind) (s : ScState) : Token := ⟨kind, lexeme s, s.line⟩

/-- `Scanner::error_token`: the message is the lexeme. -/
def error_token (message : String) (s : ScState) : Token := ⟨.Error, message.toList, s.line⟩

/-- `Scanner::check_keyword`. -/
def check_keyword (lex : List Char) : Option TokenKind :=
  if lex = "if".toList then some .If
  else if lex = "ifFalse".toList then some .IfFalse
  else if lex = "goto".toList then some .Goto
  else if lex = "param".toList then some .Param
  else if lex = "call".toList then some .Call
  else if lex = "return".toList then some .Return
  else if lex = "true".toList then some .KTrue
  else if lex = "false".toList then some .KFalse
  else if lex = "print".toList then some .Print
  else if lex = "println".toList then some .PrintLn
  else if lex = "halt".toList then some .Halt
  else if lex = "scan".toList then some .Scan
  else if lex = "u64".toList then some .U64KW
  else if lex = "i64".toList then some .I64KW
  else if lex = "f64".toList then some .F64KW
  else if lex = "char".toList then some .CharKW
  else if lex = "bool".toList then some .BoolKW
  else none

/-- `Scanner::string`. -/
def scan_string (s : ScState) : Token × ScState :=
  let s := advance_while (s.src.length + 1) (fun c => c ≠ '"') s
  if is_at_end s then (error_token "Unterminated string" s, s)
  else
    let s := advance s
    (make_token .KString s, s)

/-- `Scanner::char`. -/
def scan_char (s : ScState) : Token × ScState :=
  let (s, count) := advance_while_count (s.src.length + 1) (fun c => c ≠ '\'') s 0
  if is_at_end s then (error_token "Unterminated character" s, s)
  else
    let s := advance s
    if 1 < count then (error_token "Character literal may only contain one character" s, s)
    else (make_token .KChar s, s)

/-- `Scanner::number`: digits, optional `.` plus digits, then an
alphanumeric suffix kept inside the lexeme. -/
def scan_number (s : ScState) : Token × ScState :=
  let s := advance_while (s.src.length + 1) Char.isDigit s
  let (dot, s) := match_advance '.' s
  let s := if dot then advance_while (s.src.length + 1) Char.isDigit s else s
  let s := advance_while (s.src.length + 1) Char.isAlphanum s
  (make_token .Number s, s)

/-- `Scanner::identifier`. -/
def scan_identifier (s : ScState) : Token × ScState :=
  let s := advance_while (s.src.length + 1) (fun c => c.isAlphanum || c = '_') s
  match check_keyword (lexeme s) with
  | some tk => (make_token tk s, s)
  | none => (make_token .Identifier s, s)

/-- The inner `while` of the source's dead `#`-comment branch. -/
def skip_to_newline : Nat → ScState → ScState
  | 0, s => s
  | fuel + 1, s =>
    match peek s with
    | some c => if c = '\n' then s else skip_to_newline fuel (advance s)
    | none => s

/-- `Scanner::skip_non_tokens`, embedded exactly as written: the loop
breaks on a newline, advances over whitespace, and breaks on anything
else.  The `if c == '#'` comment branch that follows the whitespace match
is kept, but it can only run after `c.is_whitespace()` was true, so it is
dead code: a `#` reaching the loop head breaks out instead. -/
def skip_non_tokens : Nat → ScState → ScState
  | 0, s => s
  | fuel + 1, s =>
    match peek s with
    | some c =>
      if c = '\n' then s
      else if c.isWhitespace then
        let s := advance s
        let s :=
          if c = '#' then skip_to_newline (s.src.length + 1) (advance s)
          else s
        skip_non_tokens fuel s
      else s
    | none => s

/-- `Scanner::next_token`. -/
def next_token (s : ScState) : Token × ScState :=
  let s := skip_non_tokens (s.src.length + 1) s
  let s := { s with start := s.current }
  match peek s with
  | none => (make_token .Eof s, s)
  | some c =>
    let s := advance s
    if c = '\n' then (make_token .NewLine s, s)
    else if c = '(' then (make_token .LeftParen s, s)
    else if c = ')' then (make_token .RightParen s, s)
    else if c = '{' then (make_token .LeftBrace s, s)
    else if c = '}' then (make_token .RightBrace s, s)
    else if c = '[' then (make_token .LeftBracket s, s)
    else if c = ']' then (make_token .RightBracket s, s)
    else if c = ';' then (make_token .Semicolon s, s)
    else if c = ',' then (make_token .Comma s, s)
    else if c = '.' then (make_token .Dot s, s)
    else if c = '-' then (make_token .Minus s, s)
    else if c = '+' then (make_token .Plus s, s)
    else if c = '/' then (make_token .Slash s, s)
    else if c = '*' then (make_token .Star s, s)
    else if c = '%' then (make_token .Percent s, s)
    else if c = ':' then (make_token .Colon s, s)
    else if c = '!' then
      let (m, s) := match_advance '=' s
      if m then (make_token .BangEqual s, s) else (make_token .Bang s, s)
    else if c = '=' then
      let (m, s) := match_advance '=' s
      if m then (make_token .EqualEqual s, s) else (make_token .Equal s, s)
    else if c = '<' then
      let (m, s) := match_advance '<' s
      if m then (make_token .ShiftLeft s, s)
      else
        let (m, s) := match_advance '=' s
        if m then (make_token .LessEqual s, s) else (make_token .Less s, s)
    else if c = '>' then
      let (m, s) := match_advance '>' s
      if m then (make_token .ShiftRight s, s)
      else
        let (m, s) := match_advance '=' s
        if m then (make_token .GreaterEqual s, s) else (make_token .Greater s, s)
    else if c = '"' then scan_string s
    else if c = '\'' then scan_char s
    else if c.isAlpha || c = '_' then scan_identifier s
    else if c.isDigit then scan_number s
    else (error_token "Unexpected character" s, s)

/-- Run the scanner to the first `Eof` token (inclusive).  The scanner is
pure and its token stream does not depend on the compiler, so compiling
from this list is an exact model of the source's on-demand pulling; every
`next_token` call past the first `Eof` returns that same `Eof` again. -/
def scan_all : Nat → ScState → List Token
  | 0, _ => []
  | fuel + 1, s =>
    let (t, s) := next_token s
    if t.kind = .Eof then [t] else t :: scan_all fuel s

end Scanner



/-- `Precedence` from `src/compiler.rs` (only the order matters). -/
inductive Prec where
  | pnone
  | assignment
  | por
  | pand
  | equality
  | comparison
  | term
  | factor
  | unary
  | pcall
  | primary
deriving DecidableEq, Repr

/-- Numeric rank giving the derived `PartialOrd` of `Precedence`. -/
def Prec.toNat : Prec → Nat
  | .pnone => 0
  | .assignment => 1
  | .por => 2
  | .pand => 3
  | .equality => 4
  | .comparison => 5
  | .term => 6
  | .factor => 7
  | .unary => 8
  | .pcall => 9
  | .primary => 10

/-- `<=` on `Precedence`. -/
def Prec.ple (a b : Prec) : Bool := a.toNat ≤ b.toNat

/-- Where a compile diagnostic points (`error_at` in `src/error.rs`):
`" at end"` for `Eof`, nothing for `Error` tokens, `" at '<lexeme>'"`
otherwise. -/
inductive DiagLoc where
  | atEnd
  | bare
  | atLex (lex : List Char)
deriving DecidableEq, Repr

/-- One `[line N] Error ...: message` diagnostic written to stderr. -/
structure Diag where
  line : Nat
  loc : DiagLoc
  msg : String
deriving DecidableEq, Repr

/-- `error_at` from `src/error.rs`, as a structured record. -/
def mk_diag (t : Token) (msg : String) : Diag :=
  ⟨t.line,
   match t.kind with
   | .Eof => .atEnd
   | .Error => .bare
   | _ => .atLex t.lexeme,
   msg⟩

/-- The dispatch tags standing for the function pointers stored in the
source's `CompilerRule` (prefix position). -/
inductive NudTag where
  | nudNumber
  | nudLiteral
  | nudUnary
deriving DecidableEq, Repr

/-- Dispatch tag for the rule table's infix position. -/
inductive LedTag where
  | ledBinary
deriving DecidableEq, Repr

/-- `CompilerRule`: the prefix action, infix action and precedence. -/
structure CompilerRule where
  nudF : Option NudTag
  ledF : Option LedTag
  prec : Prec
deriving DecidableEq, Repr

/-- `Compiler::get_rule`.  Every kind not listed here carries
`(None, None, Precedence::None)` in the source's exhaustive table. -/
def get_rule : TokenKind → CompilerRule
  | .Minus => ⟨some .nudUnary, some .ledBinary, .term⟩
  | .Plus => ⟨none, some .ledBinary, .term⟩
  | .Slash => ⟨none, some .ledBinary, .factor⟩
  | .Star => ⟨none, some .ledBinary, .factor⟩
  | .Bang => ⟨some .nudUnary, none, .pnone⟩
  | .BangEqual => ⟨none, some .ledBinary, .equality⟩
  | .EqualEqual => ⟨none, some .ledBinary, .equality⟩
  | .Greater => ⟨none, some .ledBinary, .comparison⟩
  | .GreaterEqual => ⟨none, some .ledBinary, .comparison⟩
  | .Less => ⟨none, some .ledBinary, .comparison⟩
  | .LessEqual => ⟨none, some .ledBinary, .comparison⟩
  | .Number => ⟨some .nudNumber, none, .pnone⟩
  | .KTrue => ⟨some .nudLiteral, none, .pnone⟩
  | .KFalse => ⟨some .nudLiteral, none, .pnone⟩
  | _ => ⟨none, none, .pnone⟩

/-- Compiler state (`Compiler` in `src/compiler.rs`).  `toks`/`eofTok`
model the owned scanner: tokens are pulled in order and every pull past
the end returns the final `Eof` token again.  `crashed` marks the
source's `panic!`/`expect` sites (never set on the runs studied here). -/
structure CState where
  toks : List Token
  eofTok : Token
  chunk : Chunk
  diags : List Diag
  had_error : Bool
  panic_mode : Bool
  current : Token
  previous : Token
  labels : List (List Char × Nat)
  pending_labels : List (List Char × List (Nat × Nat))
  crashed : Bool
deriving DecidableEq, Repr

namespace Compiler

/-- `Compiler::error_at`. -/
def error_at (t : Token) (msg : String) (st : CState) : CState :=
  if st.panic_mode then st
  else { st with diags := st.diags ++ [mk_diag t msg],
                 had_error := true, panic_mode := true }

/-- `Compiler::error` (reports at `previous`). -/
def error (msg : String) (st : CState) : CState := error_at st.previous msg st

/-- `Compiler::error_at_current`. -/
def error_at_current (msg : String) (st : CState) : CState := error_at st.current msg st

/-- One scanner pull (`self.scanner.next_token()`). -/
def pump (st : CState) : Token × CState :=
  match st.toks with
  | [] => (st.eofTok, st)
  | t :: rest => (t, { st with toks := rest })

/-- The error-skipping loop inside `Compiler::advance`. -/
def advance_loop : Nat → CState → CState
  | 0, st => { st with crashed := true }
  | fuel + 1, st =>
    let (t, st) := pump st
    let st := { st with current := t }
    if t.kind = .Error then advance_loop fuel (error_at_current (String.mk t.lexeme) st)
    else st

/-- `Compiler::advance`. -/
def advance (st : CState) : CState :=
  advance_loop (st.toks.length + 1) { st with previous := st.current }

/-- `Compiler::check`. -/
def check (kind : TokenKind) (st : CState) : Bool := st.current.kind = kind

/-- `Compiler::match_advance`. -/
def match_advance (kind : TokenKind) (st : CState) : Bool × CState :=
  if check kind st then (true, advance st) else (false, st)

/-- `Compiler::consume`. -/
def consume (kind : TokenKind) (msg : String) (st : CState) : CState :=
  let (m, st) := match_advance kind st
  if m then st else error_at_current msg st

/-- `Compiler::emit_instruction` (writes at `previous.line`). -/
def emit_instruction (i : Instr) (st : CState) : CState :=
  match Chunk.write st.chunk i st.previous.line with
  | some (c, _) => { st with chunk := c }
  | none => { st with crashed := true }

/-- `Compiler::emit_instructions`. -/
def emit_instructions (is : List Instr) (st : CState) : CState :=
  is.foldl (fun st i => emit_instruction i st) st

/-- `Compiler::make_constant`. -/
def make_constant (v : Value) (st : CState) : CState :=
  match Chunk.add_constant st.chunk v with
  | (.ok idx, c) => emit_instruction (.Constant idx) { st with chunk := c }
  | (.error msg, c) => error msg { st with chunk := c }

/-- Numeric value of a digit string (the core of the Rust `from_str`s). -/
def digitsVal (s : List Char) : Nat :=
  s.foldl (fun acc c => acc * 10 + (c.toNat - '0'.toNat)) 0

/-- `u64::from_str` on the digit prefix of a numeric lexeme. -/
def parse_u64 (s : List Char) : Option Nat :=
  if !s.isEmpty && s.all Char.isDigit && decide (digitsVal s < 2 ^ 64) then some (digitsVal s)
  else none

/-- `i64::from_str` on the digit prefix (no sign can occur in a lexeme). -/
def parse_i64 (s : List Char) : Option Int :=
  if !s.isEmpty && s.all Char.isDigit && decide (digitsVal s < 2 ^ 63) then
    some (Int.ofNat (digitsVal s))
  else none

/-- `f64::from_str` on the digit prefix, as an exact rational.  The prefix
never contains letters (they start the suffix), so only the
`digits ['.' digits]` forms of the Rust grammar are reachable. -/
def parse_f64 (s : List Char) : Option Rat :=
  let intPart := s.takeWhile (fun c => c ≠ '.')
  let rest := s.dropWhile (fun c => c ≠ '.')
  match rest with
  | [] =>
    if !intPart.isEmpty && intPart.all Char.isDigit then some ((digitsVal intPart : Int) : Rat)
    else none
  | _ :: frac =>
    if (!intPart.isEmpty || !frac.isEmpty) && intPart.all Char.isDigit
        && frac.all Char.isDigit then
      some ((digitsVal intPart : Int) + (digitsVal frac : Int) / ((10 : Rat) ^ frac.length))
    else none

/-- The scanning loop at the head of `Compiler::number`: split the lexeme
at the first ASCII-alphabetic character, remembering whether a `.` was
consumed before the split point. -/
def number_split : List Char → List Char × List Char × Bool
  | [] => ([], [], false)
  | c :: cs =>
    if c.isAlpha then ([], c :: cs, false)
    else
      let (p, suf, dot) := number_split cs
      (c :: p, suf, dot || c = '.')

/-- The numeric type chosen by `Compiler::number`. -/
inductive NumT where
  | TU64
  | TI64
  | TF64
deriving DecidableEq, Repr

/-- The `match (suffix, nt)` table of `Compiler::number`. -/
def number_type (lexeme : List Char) : Except String NumT :=
  let (_, suffix, sawDot) := number_split lexeme
  if suffix = "u64".toList then
    if sawDot then .error "Cannot set u64 suffix to a float number" else .ok .TU64
  else if suffix = "i64".toList then
    if sawDot then .error "Cannot set i64 suffix to a float number" else .ok .TI64
  else if suffix = "f64".toList then .ok .TF64
  else if suffix = [] then if sawDot then .ok .TF64 else .ok .TI64
  else .error ("Invalid suffix '" ++ String.mk suffix ++ "'")

/-- `Compiler::number` up to `make_constant`: the classified and parsed
constant value, or the diagnostic message. -/
def number_result (lexeme : List Char) : Except String Value :=
  let (num, _, _) := number_split lexeme
  match number_type lexeme with
  | .error msg => .error msg
  | .ok .TU64 =>
    match parse_u64 num with
    | some v => .ok (.U64 v)
    | none => .error "It was not possible to parse number to type u64"
  | .ok .TI64 =>
    match parse_i64 num with
    | some v => .ok (.I64 v)
    | none => .error "It was not possible to parse number to type i64"
  | .ok .TF64 =>
    match parse_f64 num with
    | some v => .ok (.F64 v)
    | none => .error "It was not possible to parse number to type f64"

/-- `Compiler::number` (runs on `previous.lexeme`). -/
def compile_number (st : CState) : CState :=
  match number_result st.previous.lexeme with
  | .ok v => make_constant v st
  | .error msg => error msg st

/-- `Compiler::literal`. -/
def compile_literal (st : CState) : CState :=
  match st.previous.kind with
  | .KFalse => emit_instruction .CFalse st
  | .KTrue => emit_instruction .CTrue st
  | _ => { st with crashed := true }

/-- `Compiler::parse_precedence`, with `unary` and `binary` inlined (they
recurse back into it).  Fuel only bounds that nesting; every run studied
here gets fuel exceeding the remaining token count.  The `expect("Expect
infix rule")` panic is the `crashed` case; it is unreachable because every
rule with precedence above `None` has an infix function. -/
def parse_precedence : Nat → Prec → CState → CState
  | 0, _, st => { st with crashed := true }
  | fuel + 1, prec, st =>
    let st := advance st
    match (get_rule st.previous.kind).nudF with
    | none => error "Missing expression" st
    | some nud =>
      let st :=
        match nud with
        | .nudNumber => compile_number st
        | .nudLiteral => compile_literal st
        | .nudUnary =>
          let kind := st.previous.kind
          let st := parse_precedence fuel .primary st
          match kind with
          | .Minus => emit_instruction .Negate st
          | .Bang => emit_instruction .Not st
          | _ => { st with crashed := true }
      if prec.ple (get_rule st.current.kind).prec then
        let st := advance st
        match (get_rule st.previous.kind).ledF with
        | none => { st with crashed := true }
        | some .ledBinary =>
          let kind := st.previous.kind
          let st := parse_precedence fuel .primary st
          match kind with
          | .Plus => emit_instruction .Add st
          | .Minus => emit_instruction .Subtract st
          | .Slash => emit_instruction .Divide st
          | .Star => emit_instruction .Multiply st
          | .EqualEqual => emit_instruction .Equal st
          | .BangEqual => emit_instructions [.Equal, .Not] st
          | .Greater => emit_instruction .Greater st
          | .GreaterEqual => emit_instructions [.Less, .Not] st
          | .Less => emit_instruction .Less st
          | .LessEqual => emit_instructions [.Greater, .Not] st
          | _ => { st with crashed := true }
      else st

/-- `Compiler::expression`. -/
def expression (st : CState) : CState :=
  parse_precedence (st.toks.length + 2) .assignment st

/-- `entry(label).or_insert_with(vec![]).push(entry)` on the
pending-labels map. -/
def pending_add (m : List (List Char × List (Nat × Nat))) (key : List Char)
    (e : Nat × Nat) : List (List Char × List (Nat × Nat)) :=
  match m with
  | [] => [(key, [e])]
  | (k, v) :: rest =>
    if k = key then (k, v ++ [e]) :: rest else (k, v) :: pending_add rest key e

/-- `Compiler::print_statement`. -/
def print_statement (st : CState) : CState :=
  let nl := decide (st.previous.kind = .PrintLn)
  let st := expression st
  emit_instruction (.Print nl) st

/-- `Compiler::if_statement`. -/
def if_statement (st : CState) : CState :=
  match st.previous.kind with
  | .If | .IfFalse =>
    let negate := decide (st.previous.kind = .IfFalse)
    let stmtName := if negate then "ifFalse" else "if"
    let st := expression st
    let st := consume .Goto ("Missing 'goto' keyword after " ++ stmtName ++ " statement") st
    let st := consume .Identifier ("Missing label after " ++ stmtName ++ " statement") st
    let label := st.previous.lexeme
    let st := if negate then emit_instruction .Not st else st
    let st := { st with
      pending_labels :=
        pending_add st.pending_labels label (st.chunk.code.length, st.previous.line) }
    emit_instruction (.JumpIf 0) st
  | _ => { st with crashed := true }

/-- `Compiler::goto_statement`. -/
def goto_statement (st : CState) : CState :=
  let st := consume .Identifier "Missing label for 'goto' statement" st
  let label := st.previous.lexeme
  let st := { st with
    pending_labels :=
      pending_add st.pending_labels label (st.chunk.code.length, st.previous.line) }
  emit_instruction (.Goto 0) st

/-- `Compiler::statement`.  A `NewLine` returns before the
one-statement-per-line check; every other arm falls through to it.  Note
the dispatch has no arm for `Identifier` (or `Star`, or `Colon`): a
statement beginning with an identifier hits the `_ => "Invalid statement"`
arm, so neither labels nor assignments are compiled by this source. -/
def statement (st : CState) : CState :=
  let st := advance st
  match st.previous.kind with
  | .NewLine => st
  | k =>
    let st :=
      match k with
      | .Print | .PrintLn => print_statement st
      | .If | .IfFalse => if_statement st
      | .Goto => goto_statement st
      | .Halt => emit_instruction .Halt st
      | .Equal => error "Assignments must have a variable on the left side" st
      | .Scan => error "Return value of scan must be assigned to a variable" st
      | _ => error "Invalid statement" st
    match st.current.kind with
    | .NewLine | .Eof => st
    | _ => error_at_current "There must be at most one statement per line" st

/-- `Compiler::synchronize`'s loop (after clearing `panic_mode`). -/
def synchronize_loop : Nat → CState → CState
  | 0, st => { st with crashed := true }
  | fuel + 1, st =>
    if st.current.kind = .Eof then st
    else if st.previous.kind = .NewLine then st
    else synchronize_loop fuel (advance st)

/-- `Compiler::synchronize`. -/
def synchronize (st : CState) : CState :=
  synchronize_loop (st.toks.length + 2) { st with panic_mode := false }

/-- `Compiler::patch_jump` (the `as u16` cast is applied by the caller). -/
def patch_jump (idx : Nat) (val : Nat) (st : CState) : CState :=
  match st.chunk.code.get? idx with
  | some (Instr.Goto _) =>
    { st with chunk := { st.chunk with code := st.chunk.code.set idx (.Goto val) } }
  | some (Instr.JumpIf _) =>
    { st with chunk := { st.chunk with code := st.chunk.code.set idx (.JumpIf val) } }
  | some _ => { st with crashed := true }
  | none => { st with crashed := true }

/-- `Compiler::update_pending_labels`.  Declared labels contribute their
patches; for undeclared labels the source computes `missing_labels` but
the loop that would report them is commented out, so they have no effect
and every such `Goto`/`JumpIf` keeps its placeholder operand `0`. -/
def update_pending_labels (st : CState) : CState :=
  let patches := st.pending_labels.foldl
    (fun acc kv =>
      match assocFind st.labels kv.1 with
      | some idx => acc ++ kv.2.map (fun p => (p.1, idx))
      | none => acc)
    []
  patches.foldl (fun st p => patch_jump p.1 (p.2 % 2 ^ 16) st) st

/-- `Compiler::end`. -/
def end_compiler (st : CState) : CState :=
  let st :=
    if st.chunk.code.getLast? = some Instr.Halt then st
    else emit_instruction .Halt st
  update_pending_labels st

/-- The top-level `while !self.match_advance(Eof)` loop of
`Compiler::compile`. -/
def compile_loop : Nat → CState → CState
  | 0, st => { st with crashed := true }
  | fuel + 1, st =>
    if st.current.kind = .Eof then advance st
    else
      let st := statement st
      let st := if st.panic_mode then synchronize st else st
      compile_loop fuel st

/-- The freshly constructed compiler of `Compiler::compile`. -/
def init_state (toks : List Token) (eofTok : Token) : CState :=
  ⟨toks, eofTok, Chunk.new, [], false, false, Token.synthetic, Token.synthetic, [], [], false⟩

/-- `Compiler::compile` on an explicit token stream. -/
def run_compiler (toks : List Token) (eofTok : Token) : CState :=
  let st := init_state toks eofTok
  let st := advance st
  let st := compile_loop (toks.length + 2) st
  end_compiler st

end Compiler

/-- Scan a whole source string. -/
def scan_source (source : String) : List Token :=
  Scanner.scan_all (source.toList.length + 1) (Scanner.new source.toList)

/-- The final `Eof` token, which re-pulling past the end yields forever. -/
def eof_fallback (toks : List Token) : Token :=
  match toks.getLast? with
  | some t => if t.kind = .Eof then t else Token.synthetic
  | none => Token.synthetic

/-- `Compiler::compile(source, &mut chunk)`: the whole front end. -/
def compile_source (source : String) : CState :=
  let toks := scan_source source
  Compiler.run_compiler toks (eof_fallback toks)



/-- `Frame` from `src/vm.rs`.  Each frame owns its own operand `stack` and
symbol table `st` (name index → slot index into that same stack); `ra` is
the return address. -/
structure Frame where
  stack : List Value
  st : List (Nat × Nat)
  ra : Option Nat
deriving DecidableEq, Repr

/-- `Frame::default`. -/
def Frame.default : Frame := ⟨[], [], none⟩

/-- `VirtualMachine` state: chunk, frame stack (head = innermost frame,
i.e. the Rust `Vec`'s last element), instruction pointer, and the text
written to stdout so far. -/
structure VMState where
  chunk : Chunk
  frames : List Frame
  ip : Nat
  output : List String
deriving DecidableEq, Repr

/-- Result of one fetch-decode-execute iteration of `VirtualMachine::run`.
`fail` carries the runtime-error message and the line resolved through
`chunk.get_line` (`none` models the panic on an empty line map); `crash`
models the `unwrap` on an empty frame stack and similar panics. -/
inductive StepRes where
  | next (s : VMState)
  | done (s : VMState)
  | fail (msg : String) (line : Option Nat) (s : VMState)
  | crash (s : VMState)
deriving DecidableEq, Repr

namespace VM

/-- Pop `n` values off the operand stack (top first), as in the
argument-collection loop of `VirtualMachine::call`. -/
def pop_n : Nat → List Value → Option (List Value × List Value)
  | 0, stk => some ([], stk)
  | n + 1, stk =>
    match stk.getLast? with
    | none => none
    | some v =>
      match pop_n n stk.dropLast with
      | some (ps, stk2) => some (v :: ps, stk2)
      | none => none

/-- The stack-underflow message of the `binary_op!`/`binary_op_f!` macros
(`stringify!` renders `+`, `-`, …, or `eq`/`gt`/`lt`). -/
def underflowMsg (opName : String) : String :=
  "Can not apply operator '" ++ opName ++
    "' because there are not enough values in the stack"

/-- `binary_op!` / `binary_op_f!`: pop `b`, pop `a`, push `a ⊕ b`. -/
def bin_op (apply : Value → Value → Except String Value) (opName : String)
    (f : Frame) (rest : List Frame) (ip1 : Nat) (line : Option Nat)
    (s : VMState) : StepRes :=
  match f.stack.getLast? with
  | none => .fail (underflowMsg opName) line s
  | some b =>
    let stk := f.stack.dropLast
    match stk.getLast? with
    | none => .fail (underflowMsg opName) line s
    | some a =>
      let stk := stk.dropLast
      match apply a b with
      | .ok v =>
        .next { s with frames := { f with stack := stk ++ [v] } :: rest, ip := ip1 }
      | .error msg => .fail msg line s

/-- One iteration of `VirtualMachine::run`: fetch `code[ip]` (out of range
is a runtime error reported at the *unincremented* ip), increment ip, then
dispatch.  Runtime errors report the line of the incremented ip, exactly as
`report_rte` reads `self.ip` after the increment. -/
def step (s : VMState) : StepRes :=
  match s.chunk.code.get? s.ip with
  | none =>
    .fail "Instruction pointer reached end of code without a finishing statement"
      (s.chunk.get_line s.ip) s
  | some i =>
    let ip1 := s.ip + 1
    let line := s.chunk.get_line ip1
    match s.frames with
    | [] => .crash s
    | f :: rest =>
      match i with
      | .Halt => .done { s with ip := ip1 }
      | .Return =>
        match f.ra with
        | some r => .next { s with frames := rest, ip := r }
        | none => .done { s with frames := rest, ip := ip1 }
      | .Negate =>
        match f.stack.getLast? with
        | none =>
          .fail "Can not apply unary operator '-' because there is not a value in the stack"
            line s
        | some v =>
          match v.arithmetic_negate with
          | .ok v2 =>
            .next { s with frames := { f with stack := f.stack.dropLast ++ [v2] } :: rest,
                           ip := ip1 }
          | .error msg => .fail msg line s
      | .Not =>
        match f.stack.getLast? with
        | none =>
          .fail "Can not apply unary operator '-' because there is not a value in the stack"
            line s
        | some v =>
          match v.logic_negate with
          | .ok v2 =>
            .next { s with frames := { f with stack := f.stack.dropLast ++ [v2] } :: rest,
                           ip := ip1 }
          | .error msg => .fail msg line s
      | .Constant addr =>
        match s.chunk.get_constant addr with
        | some v =>
          .next { s with frames := { f with stack := f.stack ++ [v] } :: rest, ip := ip1 }
        | none => .crash s
      | .GetVar nameAddr =>
        let name := String.mk ((s.chunk.get_name nameAddr).getD [])
        match assocFind f.st nameAddr with
        | none => .fail ("Variable " ++ name ++ " is undefined") line s
        | some addr =>
          match f.stack.get? addr with
          | some v =>
            .next { s with frames := { f with stack := f.stack ++ [v] } :: rest, ip := ip1 }
          | none =>
            .fail ("Variable " ++ name ++ " has invalid address on symbol table") line s
      | .GetOrCreateVar nameAddr =>
        let curSp := f.stack.length
        match assocFind f.st nameAddr with
        | some addr =>
          .next { s with frames := { f with stack := f.stack ++ [.Addr addr] } :: rest,
                         ip := ip1 }
        | none =>
          .next { s with
            frames := { f with st := (nameAddr, curSp) :: f.st,
                               stack := f.stack ++ [.U64 0] ++ [.Addr curSp] } :: rest,
            ip := ip1 }
      | .CTrue =>
        .next { s with frames := { f with stack := f.stack ++ [.VBool true] } :: rest,
                       ip := ip1 }
      | .CFalse =>
        .next { s with frames := { f with stack := f.stack ++ [.VBool false] } :: rest,
                       ip := ip1 }
      | .Add => bin_op Value.add "+" f rest ip1 line s
      | .Subtract => bin_op Value.sub "-" f rest ip1 line s
      | .Multiply => bin_op Value.mul "*" f rest ip1 line s
      | .Divide => bin_op Value.div "/" f rest ip1 line s
      | .Modulo => bin_op Value.rem "%" f rest ip1 line s
      | .ShiftLeft => bin_op Value.shl "<<" f rest ip1 line s
      | .ShiftRight => bin_op Value.shr ">>" f rest ip1 line s
      | .Equal => bin_op Value.eq "eq" f rest ip1 line s
      | .Greater => bin_op Value.gt "gt" f rest ip1 line s
      | .Less => bin_op Value.lt "lt" f rest ip1 line s
      | .Print nl =>
        match f.stack.getLast? with
        | none => .fail "No value in the stack to print" line s
        | some v =>
          let suffix := if nl then "\n" else ""
          .next { s with frames := { f with stack := f.stack.dropLast } :: rest,
                         ip := ip1, output := s.output ++ [v.display ++ suffix] }
      | .Pop =>
        match f.stack.getLast? with
        | none => .fail "No value in the stack to pop" line s
        | some _ =>
          .next { s with frames := { f with stack := f.stack.dropLast } :: rest, ip := ip1 }
      | .Goto k => .next { s with ip := k }
      | .JumpIf k =>
        match f.stack.getLast? with
        | none => .fail "No value in the stack to check condition" line s
        | some v =>
          let s2 := { s with frames := { f with stack := f.stack.dropLast } :: rest }
          match v with
          | .VBool true => .next { s2 with ip := k }
          | .VBool false => .next { s2 with ip := ip1 }
          | v =>
            .fail ("Invalid type '" ++ v.type_info ++ "' for condition, 'bool' required.")
              line s
      | .Assign =>
        match f.stack.getLast? with
        | none => .fail "No value in the stack to assign" line s
        | some v =>
          let stk := f.stack.dropLast
          match stk.getLast? with
          | none => .fail "No address in the stack to assign to" line s
          | some addrV =>
            let stk := stk.dropLast
            match addrV with
            | .Addr k =>
              if k < stk.length then
                .next { s with frames := { f with stack := stk.set k v } :: rest, ip := ip1 }
              else .fail "Assignment target points to invalid stack address" line s
            | _ => .fail "Assignment target in stack is not valid" line s
      | .Call target =>
        match f.stack.getLast? with
        | none =>
          .fail "No value in the stack to define how many parameters to call function"
            line s
        | some countV =>
          let stk := f.stack.dropLast
          match countV with
          | .U64 count =>
            match pop_n count stk with
            | none =>
              .fail ("Method called with " ++ toString count ++ " parameters but "
                  ++ toString stk.length ++ " were found in the stack") line s
            | some (params, stk2) =>
              match Chunk.add_name s.chunk "args".toList with
              | (.error _, _) =>
                .fail "The program uses too many variables (65535+)" line s
              | (.ok argsAddr, ch2) =>
                match Chunk.add_name ch2 "argc".toList with
                | (.error _, _) =>
                  .fail "The program uses too many variables (65535+)" line s
                | (.ok argcAddr, ch3) =>
                  let callee : Frame :=
                    { stack := [.U64 params.length], st := [(argcAddr, 0)], ra := some ip1 }
                  let callee :=
                    if params.isEmpty then callee
                    else { callee with st := (argsAddr, 1) :: callee.st,
                                       stack := callee.stack ++ params }
                  .next { s with chunk := ch3,
                                 frames := callee :: { f with stack := stk2 } :: rest,
                                 ip := target }
          | v =>
            .fail ("Parameter count must be defined by a variable of type u64 but found type "
                ++ v.type_info) line s

/-- The fetch-execute loop of `VirtualMachine::run`, with fuel. -/
def run : Nat → VMState → StepRes ⊕ (List String)
  | 0, s => Sum.inl (.crash s)
  | fuel + 1, s =>
    match step s with
    | .next s2 => run fuel s2
    | .done s2 => Sum.inr s2.output
    | r => Sum.inl r

end VM

/-- Observable result of `VirtualMachine::interpret`. -/
inductive IRes where
  | compileError (diags : List Diag)
  | ok (out : List String)
  | rte (msg : String) (line : Option Nat) (out : List String)
  | stuck
deriving DecidableEq, Repr

/-- `VirtualMachine::interpret(source)`: fresh chunk and single default
frame, compile, propagate `CompileError`, else run.  `stuck` covers fuel
exhaustion and the modelled panic sites (never reached in the theorems
below). -/
def interpret (fuel : Nat) (source : String) : IRes :=
  let cst := compile_source source
  if cst.crashed then .stuck
  else if cst.had_error then .compileError cst.diags
  else
    match VM.run fuel { chunk := cst.chunk, frames := [Frame.default], ip := 0, output := [] } with
    | Sum.inr out => .ok out
    | Sum.inl (.fail msg line s) => .rte msg line s.output
    | Sum.inl _ => .stuck



/-- A source consisting of `n` newline characters (`n = 0` is empty). -/
def newlines (n : Nat) : String := String.mk (List.replicate n '\n')

/-- The invariant linking `names_rev` to `names`: every reverse-map entry
points at the pool slot holding its name.  `Chunk::new` satisfies it and
`add_name` preserves it. -/
def names_rev_ok (c : Chunk) : Prop :=
  ∀ p ∈ c.names_rev, c.names.get? p.2 = some p.1

/-- A two-line chunk built solely through `write`:
`write(Constant 0, line 1); write(Print true, line 2)`. -/
def lineDemoChunk : Chunk :=
  (((Chunk.new.write (.Constant 0) 1).bind fun p => p.1.write (.Print true) 2).map
    Prod.fst).getD Chunk.new

/-- The operand stack the VM currently manipulates
(`get_current_stack`: the innermost frame's own stack). -/
def VMState.currentStack (s : VMState) : List Value :=
  ((s.frames.head?).map Frame.stack).getD []

/-- A VM state about to execute `Call 0`: the caller's stack holds the
value `I64 5` below the `U64 0` argument count. -/
def callDemoState : VMState :=
  { chunk := { code := [.Call 0], constants := [], names := [], names_rev := [],
               lines := [⟨0, 1⟩] },
    frames := [⟨[.I64 5, .U64 0], [], none⟩],
    ip := 0, output := [] }

/-- The state `step` produces from `callDemoState`: a fresh callee frame
whose own operand stack holds only the pushed `argc`; the caller's `I64 5`
stays in the caller frame's separate stack. -/
def callDemoNext : VMState :=
  { chunk := { code := [.Call 0], constants := [],
               names := ["args".toList, "argc".toList],
               names_rev := [("argc".toList, 1), ("args".toList, 0)],
               lines := [⟨0, 1⟩] },
    frames := [⟨[.U64 0], [(1, 0)], some 1⟩, ⟨[.I64 5], [], none⟩],
    ip := 0, output := [] }




/-- `goto` keyword token of a one-line statement (line 1). -/
def gotoTok : Token := ⟨.Goto, "goto".toList, 1⟩

/-- The final `Eof` token of a one-line program. -/
def eofTok1 : Token := ⟨.Eof, [], 1⟩

/-- Label identifier token. -/
def idTok (lab : List Char) : Token := ⟨.Identifier, lab, 1⟩

/-- Token stream of the one-line statement `ifFalse X goto L`, with
condition operand token `t` and label `lab`. -/
def condToksA (t : Token) (lab : List Char) : List Token :=
  [⟨.IfFalse, "ifFalse".toList, 1⟩, t, gotoTok, idTok lab, eofTok1]

/-- Token stream of the one-line statement `if !X goto L`. -/
def condToksB (t : Token) (lab : List Char) : List Token :=
  [⟨.If, "if".toList, 1⟩, ⟨.Bang, ['!'], 1⟩, t, gotoTok, idTok lab, eofTok1]

/-- Compiler state with empty label table, `eofTok1` fallback and no
crash, used to spell out intermediate states of one-line compilations. -/
def mkCS (toks : List Token) (ch : Chunk) (ds : List Diag) (he pm : Bool)
    (cur prev : Token) (pend : List (List Char × List (Nat × Nat))) : CState :=
  ⟨toks, eofTok1, ch, ds, he, pm, cur, prev, [], pend, false⟩

/-- Chunk whose instructions all carry source line 1. -/
def lineChunk (code : List Instr) (cs : List Value) : Chunk := ⟨code, cs, [], [], [⟨0, 1⟩]⟩

/-- Helper: association-list lookup hits are members. -/
theorem assocFind_mem {α β : Type} [DecidableEq α] {l : List (α × β)} {k : α} {v : β}
    (h : assocFind l k = some v) : (k, v) ∈ l := by
  induction l with
  | nil => simp [assocFind] at h
  | cons p rest ih =>
    obtain ⟨a, b⟩ := p
    simp only [assocFind] at h
    by_cases hk : a = k
    · rw [if_pos hk] at h
      cases h
      subst hk
      exact List.mem_cons_self _ _
    · rw [if_neg hk] at h
      exact List.mem_cons_of_mem _ (ih h)

/-- C1: the spec says a statement beginning with an identifier compiles as
a label definition or an assignment, and that
`x = 10\ny = x * 2\nprintln y` prints `20`.  The source's statement
dispatch has no arm for `Identifier` (it falls into `_ => "Invalid
statement"`), so the program is rejected with three diagnostics and
`interpret` returns a `CompileError` instead of printing `20`. -/
theorem claim_C1_code_bug :
    interpret 20 "x = 10\ny = x * 2\nprintln y" =
      .compileError
        [⟨1, .atLex ['x'], "Invalid statement"⟩,
         ⟨2, .atLex ['y'], "Invalid statement"⟩,
         ⟨3, .atLex ['y'], "Missing expression"⟩] := by
  rfl

/-- C2: the spec says a pending label that was never declared makes
compilation fail with a diagnostic naming its first-use line.  In the
source the reporting loop is commented out (and label declarations are
never recorded at all), so `goto missing` compiles without any diagnostic:
`had_error` stays false, the pending entry for `missing` (first used on
line 1) is silently dropped, and the `Goto` keeps its placeholder operand
`0`. -/
theorem claim_C2_code_bug :
    (compile_source "goto missing").had_error = false ∧
    (compile_source "goto missing").diags = [] ∧
    (compile_source "goto missing").chunk.code = [.Goto 0, .Halt] ∧
    (compile_source "goto missing").pending_labels = [("missing".toList, [(0, 1)])] ∧
    (compile_source "goto missing").labels = [] := by
  exact ⟨rfl, rfl, rfl, rfl, rfl⟩

/-- C3: the spec says `#` starts a line comment, so a program with `#`
comments compiles exactly like the program without them.  In
`skip_non_tokens` the `false => break` arm of the whitespace match runs
before the `if c == '#'` branch can, so `#` is never skipped: it becomes
an `Error` token (`Unexpected character`) and the commented program is
rejected, while the very same program without the comment compiles and
runs. -/
theorem claim_C3_code_bug :
    interpret 20 "print 1 # c" = .compileError [⟨1, .bare, "Unexpected character"⟩] ∧
    interpret 20 "print 1" = .ok ["1"] := by
  exact ⟨rfl, rfl⟩

/-- C7: the spec says `get_line(i)` returns the line of the greatest
`lines` entry with offset ≤ i.  On the two-entry chunk built by
`write(Constant 0, line 1); write(Print true, line 2)` the binary search
computes `mid = 0` first and breaks out immediately after recording the
first entry's line, so `get_line(1)` returns line 1 although the greatest
entry with offset ≤ 1 is `(1, 2)` with line 2. -/
theorem claim_C7_code_bug :
    ((Chunk.new.write (.Constant 0) 1).bind fun p => p.1.write (.Print true) 2)
        = some (lineDemoChunk, 1) ∧
    lineDemoChunk.lines = [⟨0, 1⟩, ⟨1, 2⟩] ∧
    lineDemoChunk.get_line 1 = some 1 ∧
    lineDemoChunk.get_line_spec 1 = some 2 := by
  exact ⟨rfl, rfl, rfl, rfl⟩

/-- C4 (counterexample): the claim says the operand stack is one global
vector shared by all frames, the callee carving its portion above the
stack pointer saved at call time — so after a `Call` the caller's values
would still sit below the callee's portion of the one stack.  In the
source each `Frame` owns a private stack: stepping `Call 0` from a caller
stack holding `I64 5` yields a callee whose entire operand stack is
`[U64 0]`, and the caller's `I64 5` is not in the stack the VM now
manipulates (it lives in the caller frame's separate vector). -/
theorem claim_C4_counterexample :
    VM.step callDemoState = .next callDemoNext ∧
    callDemoState.currentStack = [.I64 5, .U64 0] ∧
    callDemoNext.currentStack = [.U64 0] ∧
    ¬ Value.I64 5 ∈ callDemoNext.currentStack := by
  refine ⟨rfl, rfl, rfl, ?_⟩
  decide



/-- C4 (amended): each frame owns a private operand stack (there is no
shared global vector and no saved stack pointer); executing `Return` in a
frame that has a return address pops that frame — discarding its stack and
symbol table wholesale — and restores `ip` to the return address, leaving
the remaining frames, including every one of their stacks, exactly as they
were. -/
theorem claim_C4_theorem (ch : Chunk) (stk : List Value) (tbl : List (Nat × Nat)) (r : Nat)
    (rest : List Frame) (ip : Nat) (out : List String)
    (h : ch.code.get? ip = some .Return) :
    VM.step ⟨ch, ⟨stk, tbl, some r⟩ :: rest, ip, out⟩ = .next ⟨ch, rest, r, out⟩ := by
  unfold VM.step
  rw [h]

/-- Witness for `claim_C4_theorem` at a concrete state. -/
theorem claim_C4_witness :
    VM.step ⟨⟨[.Return], [], [], [], [⟨0, 1⟩]⟩, [⟨[.U64 7], [], some 0⟩, Frame.default], 0, []⟩
      = .next ⟨⟨[.Return], [], [], [], [⟨0, 1⟩]⟩, [Frame.default], 0, []⟩ :=
  claim_C4_theorem _ _ _ _ _ _ _ rfl

/-- C6: a `Divide` or `Modulo` whose left operand is `F64`, `I64` or `U64`
and whose right operand is numerically zero (`F64` ±0.0, `I64 0`, `U64 0`
— exactly the values `is_numeric_zero` accepts) returns the error
`Division by 0`; running `println 10u64 / 0u64` makes the VM report that
message as a runtime error at line 1 with nothing printed. -/
theorem claim_C6_theorem :
    (∀ b : Value, b.is_numeric_zero = true ↔ (b = .F64 0 ∨ b = .I64 0 ∨ b = .U64 0)) ∧
    (∀ a b : Value, a.isDivLeft = true → b.is_numeric_zero = true →
       Value.div a b = .error "Division by 0" ∧ Value.rem a b = .error "Division by 0") ∧
    interpret 20 "println 10u64 / 0u64" = .rte "Division by 0" (some 1) [] := by
  refine ⟨?_, ?_, rfl⟩
  · intro b
    cases b <;> simp [Value.is_numeric_zero, neg_zero]
  · intro a b ha hb
    constructor <;> simp [Value.div, Value.rem, ha, hb]

/-- Witness for `claim_C6_theorem` at concrete operands. -/
theorem claim_C6_witness :
    Value.div (.U64 10) (.U64 0) = .error "Division by 0" ∧
    Value.rem (.I64 3) (.F64 0) = .error "Division by 0" :=
  ⟨(claim_C6_theorem.2.1 _ _ (by decide) (by decide)).1,
   (claim_C6_theorem.2.1 _ _ (by decide) (by decide)).2⟩

/-- C9: on a chunk whose reverse name map is in sync with its name pool
(true of every chunk the program ever builds), a second `add_name` of the
same name returns the same index and the identical chunk — the pool does
not grow — and `get_name` at that index returns the name. -/
theorem claim_C9_theorem (c : Chunk) (n : List Char) (idx : Nat) (c1 : Chunk)
    (hinv : names_rev_ok c) (h : c.add_name n = (.ok idx, c1)) :
    c1.add_name n = (.ok idx, c1) ∧ c1.get_name idx = some n := by
  cases hfind : assocFind c.names_rev n with
  | some addr =>
    rw [Chunk.add_name, hfind] at h
    injection h with h1 h2
    injection h1 with h1
    subst h1
    subst h2
    refine ⟨by rw [Chunk.add_name, hfind], ?_⟩
    exact hinv _ (assocFind_mem hfind)
  | none =>
    rw [Chunk.add_name, hfind] at h
    by_cases hlen : c.names.length < 2 ^ 16
    · rw [if_pos hlen] at h
      injection h with h1 h2
      injection h1 with h1
      subst h1
      subst h2
      constructor
      · rw [Chunk.add_name]
        simp [assocFind]
      · rw [Chunk.get_name]
        simp [List.getElem?_concat_length]
    · rw [if_neg hlen] at h
      injection h with h1 h2
      exact absurd h1 (by simp)

/-- Witness for `claim_C9_theorem` on the empty chunk and name `x`. -/
theorem claim_C9_witness :
    (Chunk.new.add_name ['x']).2.add_name ['x'] = (.ok 0, (Chunk.new.add_name ['x']).2) ∧
    (Chunk.new.add_name ['x']).2.get_name 0 = some ['x'] :=
  claim_C9_theorem Chunk.new ['x'] 0 (Chunk.new.add_name ['x']).2
    (by intro p hp; simp [Chunk.new] at hp) rfl



/-- Helper: the fused splitting loop of `Compiler::number` computes the
`takeWhile`/`dropWhile` split at the first ASCII-alphabetic character,
and its dot flag says whether the digit prefix contains a `'.'`. -/
theorem number_split_eq (s : List Char) :
    Compiler.number_split s =
      (s.takeWhile (fun c => !c.isAlpha), s.dropWhile (fun c => !c.isAlpha),
        (s.takeWhile (fun c => !c.isAlpha)).any (fun c => decide (c = '.'))) := by
  induction s with
  | nil => rfl
  | cons c cs ih =>
    by_cases hc : c.isAlpha
    · simp [Compiler.number_split, hc, List.takeWhile_cons, List.dropWhile_cons]
    · simp [Compiler.number_split, hc, List.takeWhile_cons, List.dropWhile_cons, ih,
        Bool.or_comm]

/-- C5: for every numeric lexeme, `Compiler::number` splits it at the
first ASCII-alphabetic character into a digit prefix and a suffix and
classifies it by the suffix table of the spec (`u64`/`i64` reject a dotted
prefix with the quoted messages, `f64` always parses as float, no suffix
chooses `F64`/`I64` by the dot, anything else is `Invalid suffix '<s>'`);
moreover whenever the literal produces a constant at all, the constant's
variant is the classified one. -/
theorem claim_C5_theorem (s : List Char) :
    (Compiler.number_type s =
      (if s.dropWhile (fun c => !c.isAlpha) = "u64".toList then
        if (s.takeWhile (fun c => !c.isAlpha)).any (fun c => decide (c = '.')) then
          .error "Cannot set u64 suffix to a float number"
        else .ok .TU64
      else if s.dropWhile (fun c => !c.isAlpha) = "i64".toList then
        if (s.takeWhile (fun c => !c.isAlpha)).any (fun c => decide (c = '.')) then
          .error "Cannot set i64 suffix to a float number"
        else .ok .TI64
      else if s.dropWhile (fun c => !c.isAlpha) = "f64".toList then .ok .TF64
      else if s.dropWhile (fun c => !c.isAlpha) = [] then
        if (s.takeWhile (fun c => !c.isAlpha)).any (fun c => decide (c = '.')) then
          .ok .TF64
        else .ok .TI64
      else .error ("Invalid suffix '" ++ String.mk (s.dropWhile (fun c => !c.isAlpha)) ++ "'"))) ∧
    (∀ v, Compiler.number_result s = .ok v →
      (Compiler.number_type s = .ok .TU64 → ∃ u, v = .U64 u) ∧
      (Compiler.number_type s = .ok .TI64 → ∃ i, v = .I64 i) ∧
      (Compiler.number_type s = .ok .TF64 → ∃ q, v = .F64 q)) := by
  constructor
  · rw [Compiler.number_type, number_split_eq]
  · intro v hv
    rw [Compiler.number_result] at hv
    rcases hsp : Compiler.number_split s with ⟨num, suf, dot⟩
    rw [hsp] at hv
    dsimp only at hv
    cases ht : Compiler.number_type s with
    | error m => rw [ht] at hv; exact absurd hv (by simp)
    | ok t =>
      rw [ht] at hv
      cases t with
      | TU64 =>
        refine ⟨fun _ => ?_, fun h2 => by simp at h2, fun h2 => by simp at h2⟩
        cases hp : Compiler.parse_u64 num with
        | none => rw [hp] at hv; exact absurd hv (by simp)
        | some u =>
          rw [hp] at hv
          exact ⟨u, by injection hv with hv; exact hv.symm⟩
      | TI64 =>
        refine ⟨fun h2 => by simp at h2, fun _ => ?_, fun h2 => by simp at h2⟩
        cases hp : Compiler.parse_i64 num with
        | none => rw [hp] at hv; exact absurd hv (by simp)
        | some u =>
          rw [hp] at hv
          exact ⟨u, by injection hv with hv; exact hv.symm⟩
      | TF64 =>
        refine ⟨fun h2 => by simp at h2, fun h2 => by simp at h2, fun _ => ?_⟩
        cases hp : Compiler.parse_f64 num with
        | none => rw [hp] at hv; exact absurd hv (by simp)
        | some u =>
          rw [hp] at hv
          exact ⟨u, by injection hv with hv; exact hv.symm⟩

/-- Witness for `claim_C5_theorem`: the dotted `i64` literal `3.5i64` is
rejected with the quoted message, and `3u64` produces a `U64` constant. -/
theorem claim_C5_witness :
    Compiler.number_type ("3.5i64".toList) = .error "Cannot set i64 suffix to a float number" ∧
    (∃ u, Value.U64 3 = Value.U64 u) :=
  ⟨(claim_C5_theorem ("3.5i64".toList)).1,
   ((claim_C5_theorem ("3u64".toList)).2 (Value.U64 3) rfl).1 rfl⟩



/-- Helper: one non-`Eof`, non-panicking iteration of the compile loop. -/
theorem compile_loop_go (fuel : Nat) (st st1 : CState)
    (hne : ¬ st.current.kind = TokenKind.Eof)
    (hstmt : Compiler.statement st = st1) (hp : st1.panic_mode = false) :
    Compiler.compile_loop (fuel + 1) st = Compiler.compile_loop fuel st1 := by
  simp only [Compiler.compile_loop, if_neg hne, hstmt, hp, Bool.false_eq_true, if_false]

/-- Helper: one non-`Eof` iteration whose statement left panic mode set,
so the loop synchronizes before continuing. -/
theorem compile_loop_go_sync (fuel : Nat) (st st1 : CState)
    (hne : ¬ st.current.kind = TokenKind.Eof)
    (hstmt : Compiler.statement st = st1) (hp : st1.panic_mode = true) :
    Compiler.compile_loop (fuel + 1) st = Compiler.compile_loop fuel (Compiler.synchronize st1) := by
  simp only [Compiler.compile_loop, if_neg hne, hstmt, hp, if_true]

/-- Helper: `statement` dispatching an `if`/`ifFalse` line. -/
theorem statement_cond_path (st s1 s2 : CState)
    (hadv : Compiler.advance st = s1)
    (hk : s1.previous.kind = TokenKind.If ∨ s1.previous.kind = TokenKind.IfFalse)
    (hif : Compiler.if_statement s1 = s2)
    (hcur : s2.current.kind = TokenKind.Eof) :
    Compiler.statement st = s2 := by
  rcases hk with hk | hk <;>
    simp only [Compiler.statement, hadv, hk, hif, hcur]

/-- Helper: `if_statement` on an `ifFalse` head, with the expression's
effect abstracted. -/
theorem if_statement_ifFalse_path (st s1 : CState)
    (hk : st.previous.kind = TokenKind.IfFalse)
    (hex : Compiler.expression st = s1) :
    Compiler.if_statement st =
      (let s2 := Compiler.consume .Goto
          ("Missing 'goto' keyword after " ++ "ifFalse" ++ " statement") s1
       let s3 := Compiler.consume .Identifier
          ("Missing label after " ++ "ifFalse" ++ " statement") s2
       let s4 := Compiler.emit_instruction .Not s3
       let s5 := { s4 with pending_labels := Compiler.pending_add s4.pending_labels s3.previous.lexeme (s4.chunk.code.length, s4.previous.line) }
       Compiler.emit_instruction (.JumpIf 0) s5) := by
  have hT : decide (TokenKind.IfFalse = TokenKind.IfFalse) = true := rfl
  simp only [Compiler.if_statement, hk, hex, hT, decide_True, eq_self_iff_true, if_true]

/-- Helper: `if_statement` on an `if` head (no negation emitted). -/
theorem if_statement_if_path (st s1 : CState)
    (hk : st.previous.kind = TokenKind.If)
    (hex : Compiler.expression st = s1) :
    Compiler.if_statement st =
      (let s2 := Compiler.consume .Goto
          ("Missing 'goto' keyword after " ++ "if" ++ " statement") s1
       let s3 := Compiler.consume .Identifier
          ("Missing label after " ++ "if" ++ " statement") s2
       let s5 := { s3 with pending_labels := Compiler.pending_add s3.pending_labels s3.previous.lexeme (s3.chunk.code.length, s3.previous.line) }
       Compiler.emit_instruction (.JumpIf 0) s5) := by
  have hF : decide (TokenKind.If = TokenKind.IfFalse) = false := rfl
  simp only [Compiler.if_statement, hk, hex, hF, Bool.false_eq_true, if_false]

/-- Helper: `parse_precedence` on a `Number` operand whose infix check
fails (the following token has no usable precedence). -/
theorem parse_precedence_number (fuel : Nat) (prec : Prec) (st s1 s2 : CState)
    (hadv : Compiler.advance st = s1)
    (hk : s1.previous.kind = TokenKind.Number)
    (hnum : Compiler.compile_number s1 = s2)
    (hprec : prec.ple (get_rule s2.current.kind).prec = false) :
    Compiler.parse_precedence (fuel + 1) prec st = s2 := by
  have h1 : get_rule TokenKind.Number = ⟨some NudTag.nudNumber, none, Prec.pnone⟩ := rfl
  simp only [Compiler.parse_precedence, hadv, hk, h1, hnum, hprec, Bool.false_eq_true, if_false]

/-- Helper: `parse_precedence` on a `!`-prefixed operand: the recursive
primary parse is abstracted, then `Not` is emitted. -/
theorem parse_precedence_unary_bang (fuel : Nat) (prec : Prec) (st s1 s2 s3 : CState)
    (hadv : Compiler.advance st = s1)
    (hk : s1.previous.kind = TokenKind.Bang)
    (hinner : Compiler.parse_precedence fuel .primary s1 = s2)
    (hemit : Compiler.emit_instruction .Not s2 = s3)
    (hprec : prec.ple (get_rule s3.current.kind).prec = false) :
    Compiler.parse_precedence (fuel + 1) prec st = s3 := by
  have h1 : get_rule TokenKind.Bang = ⟨some NudTag.nudUnary, none, Prec.pnone⟩ := rfl
  simp only [Compiler.parse_precedence, hadv, hk, h1, hinner, hemit, hprec,
    Bool.false_eq_true, if_false]



/-- Helper: `parse_precedence` on a `true`/`false` literal operand whose
infix check fails. -/
theorem parse_precedence_literal (fuel : Nat) (prec : Prec) (st s1 s2 : CState)
    (hadv : Compiler.advance st = s1)
    (hk : s1.previous.kind = TokenKind.KTrue ∨ s1.previous.kind = TokenKind.KFalse)
    (hlit : Compiler.compile_literal s1 = s2)
    (hprec : prec.ple (get_rule s2.current.kind).prec = false) :
    Compiler.parse_precedence (fuel + 1) prec st = s2 := by
  have h1 : get_rule TokenKind.KTrue = ⟨some NudTag.nudLiteral, none, Prec.pnone⟩ := rfl
  have h2 : get_rule TokenKind.KFalse = ⟨some NudTag.nudLiteral, none, Prec.pnone⟩ := rfl
  rcases hk with hk | hk <;>
    simp only [Compiler.parse_precedence, hadv, hk, h1, h2, hlit, hprec, Bool.false_eq_true,
      if_false]



/-- C8: for every single-token condition operand the code's expression
grammar accepts (`true`, `false`, or a numeric literal with any lexeme)
and every label, compiling the one-line statement `ifFalse X goto L`
produces exactly the same compiler state as compiling `if !X goto L`:
the code for `X`, then `Not`, then a `JumpIf` recorded under the same
pending-label entry — hence identical bytecode and identical runtime
behaviour (this holds for the rejected numeric lexemes too, where both
forms report the identical diagnostic). -/
theorem claim_C8_theorem (t : Token) (lab : List Char)
    (hline : t.line = 1)
    (hkind : t.kind = .KTrue ∨ t.kind = .KFalse ∨ t.kind = .Number) :
    Compiler.run_compiler (condToksA t lab) eofTok1
      = Compiler.run_compiler (condToksB t lab) eofTok1 := by
  obtain ⟨k, lex, tl⟩ := t
  dsimp only at hline hkind
  subst hline
  rcases hkind with hk | hk | hk <;> subst hk
  · have hlit : Compiler.compile_literal (mkCS [idTok lab, eofTok1] Chunk.new [] false false gotoTok ⟨.KTrue, lex, 1⟩ []) = (mkCS [idTok lab, eofTok1] (lineChunk [.CTrue] []) [] false false gotoTok ⟨.KTrue, lex, 1⟩ []) := rfl
    have hexpA : Compiler.expression (mkCS [gotoTok, idTok lab, eofTok1] Chunk.new [] false false ⟨.KTrue, lex, 1⟩ ⟨.IfFalse, "ifFalse".toList, 1⟩ []) = (mkCS [idTok lab, eofTok1] (lineChunk [.CTrue] []) [] false false gotoTok ⟨.KTrue, lex, 1⟩ []) := by
      unfold Compiler.expression
      exact parse_precedence_literal 4 .assignment _ _ _ rfl (Or.inl rfl) hlit rfl
    have hifA : Compiler.if_statement (mkCS [gotoTok, idTok lab, eofTok1] Chunk.new [] false false ⟨.KTrue, lex, 1⟩ ⟨.IfFalse, "ifFalse".toList, 1⟩ []) = (mkCS [] (lineChunk [.CTrue, .Not, .JumpIf 0] []) [] false false eofTok1 (idTok lab) [(lab, [(2, 1)])]) := by
      rw [if_statement_ifFalse_path _ _ rfl hexpA]
      rfl
    have hstA : Compiler.statement (mkCS [⟨.KTrue, lex, 1⟩, gotoTok, idTok lab, eofTok1] Chunk.new [] false false ⟨.IfFalse, "ifFalse".toList, 1⟩ Token.synthetic []) = (mkCS [] (lineChunk [.CTrue, .Not, .JumpIf 0] []) [] false false eofTok1 (idTok lab) [(lab, [(2, 1)])]) :=
      statement_cond_path _ _ _ rfl (Or.inr rfl) hifA rfl
    have hA : Compiler.run_compiler (condToksA ⟨.KTrue, lex, 1⟩ lab) eofTok1 = (mkCS [] (lineChunk [.CTrue, .Not, .JumpIf 0, .Halt] []) [] false false eofTok1 eofTok1 [(lab, [(2, 1)])]) := by
      have e1 : Compiler.run_compiler (condToksA ⟨.KTrue, lex, 1⟩ lab) eofTok1
          = Compiler.end_compiler (Compiler.compile_loop 7 (mkCS [⟨.KTrue, lex, 1⟩, gotoTok, idTok lab, eofTok1] Chunk.new [] false false ⟨.IfFalse, "ifFalse".toList, 1⟩ Token.synthetic [])) := rfl
      rw [e1, compile_loop_go 6 _ _ (by simp [mkCS]) hstA rfl]
      rfl
    have hinner : Compiler.parse_precedence 5 .primary (mkCS [gotoTok, idTok lab, eofTok1] Chunk.new [] false false ⟨.KTrue, lex, 1⟩ ⟨.Bang, ['!'], 1⟩ []) = (mkCS [idTok lab, eofTok1] (lineChunk [.CTrue] []) [] false false gotoTok ⟨.KTrue, lex, 1⟩ []) :=
      parse_precedence_literal 4 .primary _ _ _ rfl (Or.inl rfl) hlit rfl
    have hemit : Compiler.emit_instruction .Not (mkCS [idTok lab, eofTok1] (lineChunk [.CTrue] []) [] false false gotoTok ⟨.KTrue, lex, 1⟩ []) = (mkCS [idTok lab, eofTok1] (lineChunk [.CTrue, .Not] []) [] false false gotoTok ⟨.KTrue, lex, 1⟩ []) := rfl
    have hexpB : Compiler.expression (mkCS [⟨.KTrue, lex, 1⟩, gotoTok, idTok lab, eofTok1] Chunk.new [] false false ⟨.Bang, ['!'], 1⟩ ⟨.If, "if".toList, 1⟩ []) = (mkCS [idTok lab, eofTok1] (lineChunk [.CTrue, .Not] []) [] false false gotoTok ⟨.KTrue, lex, 1⟩ []) := by
      unfold Compiler.expression
      exact parse_precedence_unary_bang 5 .assignment _ _ _ _ rfl rfl hinner hemit rfl
    have hifB : Compiler.if_statement (mkCS [⟨.KTrue, lex, 1⟩, gotoTok, idTok lab, eofTok1] Chunk.new [] false false ⟨.Bang, ['!'], 1⟩ ⟨.If, "if".toList, 1⟩ []) = (mkCS [] (lineChunk [.CTrue, .Not, .JumpIf 0] []) [] false false eofTok1 (idTok lab) [(lab, [(2, 1)])]) := by
      rw [if_statement_if_path _ _ rfl hexpB]
      rfl
    have hstB : Compiler.statement (mkCS [⟨.Bang, ['!'], 1⟩, ⟨.KTrue, lex, 1⟩, gotoTok, idTok lab, eofTok1] Chunk.new [] false false ⟨.If, "if".toList, 1⟩ Token.synthetic []) = (mkCS [] (lineChunk [.CTrue, .Not, .JumpIf 0] []) [] false false eofTok1 (idTok lab) [(lab, [(2, 1)])]) :=
      statement_cond_path _ _ _ rfl (Or.inl rfl) hifB rfl
    have hB : Compiler.run_compiler (condToksB ⟨.KTrue, lex, 1⟩ lab) eofTok1 = (mkCS [] (lineChunk [.CTrue, .Not, .JumpIf 0, .Halt] []) [] false false eofTok1 eofTok1 [(lab, [(2, 1)])]) := by
      have e1 : Compiler.run_compiler (condToksB ⟨.KTrue, lex, 1⟩ lab) eofTok1
          = Compiler.end_compiler (Compiler.compile_loop 8 (mkCS [⟨.Bang, ['!'], 1⟩, ⟨.KTrue, lex, 1⟩, gotoTok, idTok lab, eofTok1] Chunk.new [] false false ⟨.If, "if".toList, 1⟩ Token.synthetic [])) := rfl
      rw [e1, compile_loop_go 7 _ _ (by simp [mkCS]) hstB rfl]
      rfl
    exact hA.trans hB.symm
  · have hlit : Compiler.compile_literal (mkCS [idTok lab, eofTok1] Chunk.new [] false false gotoTok ⟨.KFalse, lex, 1⟩ []) = (mkCS [idTok lab, eofTok1] (lineChunk [.CFalse] []) [] false false gotoTok ⟨.KFalse, lex, 1⟩ []) := rfl
    have hexpA : Compiler.expression (mkCS [gotoTok, idTok lab, eofTok1] Chunk.new [] false false ⟨.KFalse, lex, 1⟩ ⟨.IfFalse, "ifFalse".toList, 1⟩ []) = (mkCS [idTok lab, eofTok1] (lineChunk [.CFalse] []) [] false false gotoTok ⟨.KFalse, lex, 1⟩ []) := by
      unfold Compiler.expression
      exact parse_precedence_literal 4 .assignment _ _ _ rfl (Or.inr rfl) hlit rfl
    have hifA : Compiler.if_statement (mkCS [gotoTok, idTok lab, eofTok1] Chunk.new [] false false ⟨.KFalse, lex, 1⟩ ⟨.IfFalse, "ifFalse".toList, 1⟩ []) = (mkCS [] (lineChunk [.CFalse, .Not, .JumpIf 0] []) [] false false eofTok1 (idTok lab) [(lab, [(2, 1)])]) := by
      rw [if_statement_ifFalse_path _ _ rfl hexpA]
      rfl
    have hstA : Compiler.statement (mkCS [⟨.KFalse, lex, 1⟩, gotoTok, idTok lab, eofTok1] Chunk.new [] false false ⟨.IfFalse, "ifFalse".toList, 1⟩ Token.synthetic []) = (mkCS [] (lineChunk [.CFalse, .Not, .JumpIf 0] []) [] false false eofTok1 (idTok lab) [(lab, [(2, 1)])]) :=
      statement_cond_path _ _ _ rfl (Or.inr rfl) hifA rfl
    have hA : Compiler.run_compiler (condToksA ⟨.KFalse, lex, 1⟩ lab) eofTok1 = (mkCS [] (lineChunk [.CFalse, .Not, .JumpIf 0, .Halt] []) [] false false eofTok1 eofTok1 [(lab, [(2, 1)])]) := by
      have e1 : Compiler.run_compiler (condToksA ⟨.KFalse, lex, 1⟩ lab) eofTok1
          = Compiler.end_compiler (Compiler.compile_loop 7 (mkCS [⟨.KFalse, lex, 1⟩, gotoTok, idTok lab, eofTok1] Chunk.new [] false false ⟨.IfFalse, "ifFalse".toList, 1⟩ Token.synthetic [])) := rfl
      rw [e1, compile_loop_go 6 _ _ (by simp [mkCS]) hstA rfl]
      rfl
    have hinner : Compiler.parse_precedence 5 .primary (mkCS [gotoTok, idTok lab, eofTok1] Chunk.new [] false false ⟨.KFalse, lex, 1⟩ ⟨.Bang, ['!'], 1⟩ []) = (mkCS [idTok lab, eofTok1] (lineChunk [.CFalse] []) [] false false gotoTok ⟨.KFalse, lex, 1⟩ []) :=
      parse_precedence_literal 4 .primary _ _ _ rfl (Or.inr rfl) hlit rfl
    have hemit : Compiler.emit_instruction .Not (mkCS [idTok lab, eofTok1] (lineChunk [.CFalse] []) [] false false gotoTok ⟨.KFalse, lex, 1⟩ []) = (mkCS [idTok lab, eofTok1] (lineChunk [.CFalse, .Not] []) [] false false gotoTok ⟨.KFalse, lex, 1⟩ []) := rfl
    have hexpB : Compiler.expression (mkCS [⟨.KFalse, lex, 1⟩, gotoTok, idTok lab, eofTok1] Chunk.new [] false false ⟨.Bang, ['!'], 1⟩ ⟨.If, "if".toList, 1⟩ []) = (mkCS [idTok lab, eofTok1] (lineChunk [.CFalse, .Not] []) [] false false gotoTok ⟨.KFalse, lex, 1⟩ []) := by
      unfold Compiler.expression
      exact parse_precedence_unary_bang 5 .assignment _ _ _ _ rfl rfl hinner hemit rfl
    have hifB : Compiler.if_statement (mkCS [⟨.KFalse, lex, 1⟩, gotoTok, idTok lab, eofTok1] Chunk.new [] false false ⟨.Bang, ['!'], 1⟩ ⟨.If, "if".toList, 1⟩ []) = (mkCS [] (lineChunk [.CFalse, .Not, .JumpIf 0] []) [] false false eofTok1 (idTok lab) [(lab, [(2, 1)])]) := by
      rw [if_statement_if_path _ _ rfl hexpB]
      rfl
    have hstB : Compiler.statement (mkCS [⟨.Bang, ['!'], 1⟩, ⟨.KFalse, lex, 1⟩, gotoTok, idTok lab, eofTok1] Chunk.new [] false false ⟨.If, "if".toList, 1⟩ Token.synthetic []) = (mkCS [] (lineChunk [.CFalse, .Not, .JumpIf 0] []) [] false false eofTok1 (idTok lab) [(lab, [(2, 1)])]) :=
      statement_cond_path _ _ _ rfl (Or.inl rfl) hifB rfl
    have hB : Compiler.run_compiler (condToksB ⟨.KFalse, lex, 1⟩ lab) eofTok1 = (mkCS [] (lineChunk [.CFalse, .Not, .JumpIf 0, .Halt] []) [] false false eofTok1 eofTok1 [(lab, [(2, 1)])]) := by
      have e1 : Compiler.run_compiler (condToksB ⟨.KFalse, lex, 1⟩ lab) eofTok1
          = Compiler.end_compiler (Compiler.compile_loop 8 (mkCS [⟨.Bang, ['!'], 1⟩, ⟨.KFalse, lex, 1⟩, gotoTok, idTok lab, eofTok1] Chunk.new [] false false ⟨.If, "if".toList, 1⟩ Token.synthetic [])) := rfl
      rw [e1, compile_loop_go 7 _ _ (by simp [mkCS]) hstB rfl]
      rfl
    exact hA.trans hB.symm
  · cases hr : Compiler.number_result lex with
    | ok v =>
      have hnum : Compiler.compile_number (mkCS [idTok lab, eofTok1] Chunk.new [] false false gotoTok ⟨.Number, lex, 1⟩ []) = (mkCS [idTok lab, eofTok1] (lineChunk [.Constant 0] [v]) [] false false gotoTok ⟨.Number, lex, 1⟩ []) := by
        simp only [Compiler.compile_number, mkCS, idTok, gotoTok, eofTok1]
        rw [hr]
        rfl
      have hexpA : Compiler.expression (mkCS [gotoTok, idTok lab, eofTok1] Chunk.new [] false false ⟨.Number, lex, 1⟩ ⟨.IfFalse, "ifFalse".toList, 1⟩ []) = (mkCS [idTok lab, eofTok1] (lineChunk [.Constant 0] [v]) [] false false gotoTok ⟨.Number, lex, 1⟩ []) := by
        unfold Compiler.expression
        exact parse_precedence_number 4 .assignment _ _ _ rfl rfl hnum rfl
      have hifA : Compiler.if_statement (mkCS [gotoTok, idTok lab, eofTok1] Chunk.new [] false false ⟨.Number, lex, 1⟩ ⟨.IfFalse, "ifFalse".toList, 1⟩ []) = (mkCS [] (lineChunk [.Constant 0, .Not, .JumpIf 0] [v]) [] false false eofTok1 (idTok lab) [(lab, [(2, 1)])]) := by
        rw [if_statement_ifFalse_path _ _ rfl hexpA]
        rfl
      have hstA : Compiler.statement (mkCS [⟨.Number, lex, 1⟩, gotoTok, idTok lab, eofTok1] Chunk.new [] false false ⟨.IfFalse, "ifFalse".toList, 1⟩ Token.synthetic []) = (mkCS [] (lineChunk [.Constant 0, .Not, .JumpIf 0] [v]) [] false false eofTok1 (idTok lab) [(lab, [(2, 1)])]) :=
        statement_cond_path _ _ _ rfl (Or.inr rfl) hifA rfl
      have hA : Compiler.run_compiler (condToksA ⟨.Number, lex, 1⟩ lab) eofTok1 = (mkCS [] (lineChunk [.Constant 0, .Not, .JumpIf 0, .Halt] [v]) [] false false eofTok1 eofTok1 [(lab, [(2, 1)])]) := by
        have e1 : Compiler.run_compiler (condToksA ⟨.Number, lex, 1⟩ lab) eofTok1
            = Compiler.end_compiler (Compiler.compile_loop 7 (mkCS [⟨.Number, lex, 1⟩, gotoTok, idTok lab, eofTok1] Chunk.new [] false false ⟨.IfFalse, "ifFalse".toList, 1⟩ Token.synthetic [])) := rfl
        rw [e1, compile_loop_go 6 _ _ (by simp [mkCS]) hstA rfl]
        rfl
      have hinner : Compiler.parse_precedence 5 .primary (mkCS [gotoTok, idTok lab, eofTok1] Chunk.new [] false false ⟨.Number, lex, 1⟩ ⟨.Bang, ['!'], 1⟩ []) = (mkCS [idTok lab, eofTok1] (lineChunk [.Constant 0] [v]) [] false false gotoTok ⟨.Number, lex, 1⟩ []) :=
        parse_precedence_number 4 .primary _ _ _ rfl rfl hnum rfl
      have hemit : Compiler.emit_instruction .Not (mkCS [idTok lab, eofTok1] (lineChunk [.Constant 0] [v]) [] false false gotoTok ⟨.Number, lex, 1⟩ []) = (mkCS [idTok lab, eofTok1] (lineChunk [.Constant 0, .Not] [v]) [] false false gotoTok ⟨.Number, lex, 1⟩ []) := rfl
      have hexpB : Compiler.expression (mkCS [⟨.Number, lex, 1⟩, gotoTok, idTok lab, eofTok1] Chunk.new [] false false ⟨.Bang, ['!'], 1⟩ ⟨.If, "if".toList, 1⟩ []) = (mkCS [idTok lab, eofTok1] (lineChunk [.Constant 0, .Not] [v]) [] false false gotoTok ⟨.Number, lex, 1⟩ []) := by
        unfold Compiler.expression
        exact parse_precedence_unary_bang 5 .assignment _ _ _ _ rfl rfl hinner hemit rfl
      have hifB : Compiler.if_statement (mkCS [⟨.Number, lex, 1⟩, gotoTok, idTok lab, eofTok1] Chunk.new [] false false ⟨.Bang, ['!'], 1⟩ ⟨.If, "if".toList, 1⟩ []) = (mkCS [] (lineChunk [.Constant 0, .Not, .JumpIf 0] [v]) [] false false eofTok1 (idTok lab) [(lab, [(2, 1)])]) := by
        rw [if_statement_if_path _ _ rfl hexpB]
        rfl
      have hstB : Compiler.statement (mkCS [⟨.Bang, ['!'], 1⟩, ⟨.Number, lex, 1⟩, gotoTok, idTok lab, eofTok1] Chunk.new [] false false ⟨.If, "if".toList, 1⟩ Token.synthetic []) = (mkCS [] (lineChunk [.Constant 0, .Not, .JumpIf 0] [v]) [] false false eofTok1 (idTok lab) [(lab, [(2, 1)])]) :=
        statement_cond_path _ _ _ rfl (Or.inl rfl) hifB rfl
      have hB : Compiler.run_compiler (condToksB ⟨.Number, lex, 1⟩ lab) eofTok1 = (mkCS [] (lineChunk [.Constant 0, .Not, .JumpIf 0, .Halt] [v]) [] false false eofTok1 eofTok1 [(lab, [(2, 1)])]) := by
        have e1 : Compiler.run_compiler (condToksB ⟨.Number, lex, 1⟩ lab) eofTok1
            = Compiler.end_compiler (Compiler.compile_loop 8 (mkCS [⟨.Bang, ['!'], 1⟩, ⟨.Number, lex, 1⟩, gotoTok, idTok lab, eofTok1] Chunk.new [] false false ⟨.If, "if".toList, 1⟩ Token.synthetic [])) := rfl
        rw [e1, compile_loop_go 7 _ _ (by simp [mkCS]) hstB rfl]
        rfl
      exact hA.trans hB.symm
    | error m =>
      have hnum : Compiler.compile_number (mkCS [idTok lab, eofTok1] Chunk.new [] false false gotoTok ⟨.Number, lex, 1⟩ []) = (mkCS [idTok lab, eofTok1] Chunk.new [⟨1, .atLex lex, m⟩] true true gotoTok ⟨.Number, lex, 1⟩ []) := by
        simp only [Compiler.compile_number, mkCS, idTok, gotoTok, eofTok1]
        rw [hr]
        rfl
      have hexpA : Compiler.expression (mkCS [gotoTok, idTok lab, eofTok1] Chunk.new [] false false ⟨.Number, lex, 1⟩ ⟨.IfFalse, "ifFalse".toList, 1⟩ []) = (mkCS [idTok lab, eofTok1] Chunk.new [⟨1, .atLex lex, m⟩] true true gotoTok ⟨.Number, lex, 1⟩ []) := by
        unfold Compiler.expression
        exact parse_precedence_number 4 .assignment _ _ _ rfl rfl hnum rfl
      have hifA : Compiler.if_statement (mkCS [gotoTok, idTok lab, eofTok1] Chunk.new [] false false ⟨.Number, lex, 1⟩ ⟨.IfFalse, "ifFalse".toList, 1⟩ []) = (mkCS [] (lineChunk [.Not, .JumpIf 0] []) [⟨1, .atLex lex, m⟩] true true eofTok1 (idTok lab) [(lab, [(1, 1)])]) := by
        rw [if_statement_ifFalse_path _ _ rfl hexpA]
        rfl
      have hstA : Compiler.statement (mkCS [⟨.Number, lex, 1⟩, gotoTok, idTok lab, eofTok1] Chunk.new [] false false ⟨.IfFalse, "ifFalse".toList, 1⟩ Token.synthetic []) = (mkCS [] (lineChunk [.Not, .JumpIf 0] []) [⟨1, .atLex lex, m⟩] true true eofTok1 (idTok lab) [(lab, [(1, 1)])]) :=
        statement_cond_path _ _ _ rfl (Or.inr rfl) hifA rfl
      have hA : Compiler.run_compiler (condToksA ⟨.Number, lex, 1⟩ lab) eofTok1 = (mkCS [] (lineChunk [.Not, .JumpIf 0, .Halt] []) [⟨1, .atLex lex, m⟩] true false eofTok1 eofTok1 [(lab, [(1, 1)])]) := by
        have e1 : Compiler.run_compiler (condToksA ⟨.Number, lex, 1⟩ lab) eofTok1
            = Compiler.end_compiler (Compiler.compile_loop 7 (mkCS [⟨.Number, lex, 1⟩, gotoTok, idTok lab, eofTok1] Chunk.new [] false false ⟨.IfFalse, "ifFalse".toList, 1⟩ Token.synthetic [])) := rfl
        rw [e1, compile_loop_go_sync 6 _ _ (by simp [mkCS]) hstA rfl]
        rfl
      have hinner : Compiler.parse_precedence 5 .primary (mkCS [gotoTok, idTok lab, eofTok1] Chunk.new [] false false ⟨.Number, lex, 1⟩ ⟨.Bang, ['!'], 1⟩ []) = (mkCS [idTok lab, eofTok1] Chunk.new [⟨1, .atLex lex, m⟩] true true gotoTok ⟨.Number, lex, 1⟩ []) :=
        parse_precedence_number 4 .primary _ _ _ rfl rfl hnum rfl
      have hemit : Compiler.emit_instruction .Not (mkCS [idTok lab, eofTok1] Chunk.new [⟨1, .atLex lex, m⟩] true true gotoTok ⟨.Number, lex, 1⟩ []) = (mkCS [idTok lab, eofTok1] (lineChunk [.Not] []) [⟨1, .atLex lex, m⟩] true true gotoTok ⟨.Number, lex, 1⟩ []) := rfl
      have hexpB : Compiler.expression (mkCS [⟨.Number, lex, 1⟩, gotoTok, idTok lab, eofTok1] Chunk.new [] false false ⟨.Bang, ['!'], 1⟩ ⟨.If, "if".toList, 1⟩ []) = (mkCS [idTok lab, eofTok1] (lineChunk [.Not] []) [⟨1, .atLex lex, m⟩] true true gotoTok ⟨.Number, lex, 1⟩ []) := by
        unfold Compiler.expression
        exact parse_precedence_unary_bang 5 .assignment _ _ _ _ rfl rfl hinner hemit rfl
      have hifB : Compiler.if_statement (mkCS [⟨.Number, lex, 1⟩, gotoTok, idTok lab, eofTok1] Chunk.new [] false false ⟨.Bang, ['!'], 1⟩ ⟨.If, "if".toList, 1⟩ []) = (mkCS [] (lineChunk [.Not, .JumpIf 0] []) [⟨1, .atLex lex, m⟩] true true eofTok1 (idTok lab) [(lab, [(1, 1)])]) := by
        rw [if_statement_if_path _ _ rfl hexpB]
        rfl
      have hstB : Compiler.statement (mkCS [⟨.Bang, ['!'], 1⟩, ⟨.Number, lex, 1⟩, gotoTok, idTok lab, eofTok1] Chunk.new [] false false ⟨.If, "if".toList, 1⟩ Token.synthetic []) = (mkCS [] (lineChunk [.Not, .JumpIf 0] []) [⟨1, .atLex lex, m⟩] true true eofTok1 (idTok lab) [(lab, [(1, 1)])]) :=
        statement_cond_path _ _ _ rfl (Or.inl rfl) hifB rfl
      have hB : Compiler.run_compiler (condToksB ⟨.Number, lex, 1⟩ lab) eofTok1 = (mkCS [] (lineChunk [.Not, .JumpIf 0, .Halt] []) [⟨1, .atLex lex, m⟩] true false eofTok1 eofTok1 [(lab, [(1, 1)])]) := by
        have e1 : Compiler.run_compiler (condToksB ⟨.Number, lex, 1⟩ lab) eofTok1
            = Compiler.end_compiler (Compiler.compile_loop 8 (mkCS [⟨.Bang, ['!'], 1⟩, ⟨.Number, lex, 1⟩, gotoTok, idTok lab, eofTok1] Chunk.new [] false false ⟨.If, "if".toList, 1⟩ Token.synthetic [])) := rfl
        rw [e1, compile_loop_go_sync 7 _ _ (by simp [mkCS]) hstB rfl]
        rfl
      exact hA.trans hB.symm

/-- Witness for `claim_C8_theorem` at `X = true`, `L = L`. -/
theorem claim_C8_witness :
    Compiler.run_compiler (condToksA ⟨.KTrue, "true".toList, 1⟩ ['L']) eofTok1
      = Compiler.run_compiler (condToksB ⟨.KTrue, "true".toList, 1⟩ ['L']) eofTok1 :=
  claim_C8_theorem ⟨.KTrue, "true".toList, 1⟩ ['L'] rfl (Or.inl rfl)



/-- Helper: indexing a `replicate` below its length. -/
theorem get?_replicate_lt (a : Char) {n k : Nat} (h : k < n) :
    (List.replicate n a).get? k = some a := by
  rw [List.get?_eq_get (by simpa using h)]
  simp

/-- Helper: the token-skip loop stops immediately on a newline. -/
theorem skip_non_tokens_nl (fuel : Nat) (s : ScState) (h : Scanner.peek s = some '\n') :
    Scanner.skip_non_tokens (fuel + 1) s = s := by
  simp [Scanner.skip_non_tokens, h]

/-- Helper: the token-skip loop stops at end of input. -/
theorem skip_non_tokens_end (fuel : Nat) (s : ScState) (h : Scanner.peek s = none) :
    Scanner.skip_non_tokens (fuel + 1) s = s := by
  simp [Scanner.skip_non_tokens, h]

/-- Helper: scanning a newline-only source from char position `k` (on
line `k + 1`) yields one `NewLine` token per remaining character — the
`i`-th carrying line `i + 2` — and a final `Eof` carrying line `n + 1`. -/
theorem scan_nl_aux :
    ∀ (m fuel st0 k n : Nat), n = k + m → m < fuel →
      Scanner.scan_all fuel ⟨List.replicate n '\n', st0, k, k + 1⟩ =
        (List.range' k m).map (fun i => ⟨TokenKind.NewLine, ['\n'], i + 2⟩) ++
          [⟨TokenKind.Eof, [], n + 1⟩] := by
  intro m
  induction m with
  | zero =>
    intro fuel st0 k n hn hf
    obtain ⟨f, rfl⟩ : ∃ f, fuel = f + 1 := ⟨fuel - 1, by omega⟩
    rw [show n = k from by omega]
    have hpeek : ∀ a : Nat, Scanner.peek ⟨List.replicate k '\n', a, k, k + 1⟩ = none := by
      intro a
      simp [Scanner.peek, List.get?_eq_none]
    simp [Scanner.scan_all, Scanner.next_token, skip_non_tokens_end, hpeek,
      Scanner.make_token, Scanner.lexeme, List.take_replicate, List.drop_replicate]
  | succ m ih =>
    intro fuel st0 k n hn hf
    obtain ⟨f, rfl⟩ : ∃ f, fuel = f + 1 := ⟨fuel - 1, by omega⟩
    have hpeek : ∀ a : Nat, Scanner.peek ⟨List.replicate n '\n', a, k, k + 1⟩ = some '\n' := by
      intro a
      simp only [Scanner.peek]
      exact get?_replicate_lt _ (by omega)
    have hlex : ((List.replicate n '\n').take (k + 1)).drop k = ['\n'] := by
      rw [List.take_replicate, List.drop_replicate]
      rw [show min (k + 1) n = k + 1 from by omega]
      simp
    simp only [Scanner.scan_all, Scanner.next_token, List.length_replicate,
      skip_non_tokens_nl, hpeek, Scanner.advance, Scanner.make_token,
      Scanner.lexeme, hlex]
    simp only [if_true, eq_self_iff_true]
    rw [show Scanner.scan_all f ⟨List.replicate n '\n', k, k + 1, k + 2⟩
        = Scanner.scan_all f ⟨List.replicate n '\n', k, k + 1, (k + 1) + 1⟩ from by norm_num]
    rw [ih f k (k + 1) n (by omega) (by omega)]
    rw [List.range'_succ]
    simp



/-- Helper: the compile loop over a newline-only token stream is a no-op:
each `NewLine` statement returns immediately, the final `match_advance`
consumes the `Eof`, and the chunk stays empty. -/
theorem compile_loop_nl (e : Token) (he : e.kind = TokenKind.Eof) :
    ∀ (nls : List Token), (∀ t ∈ nls, t.kind = TokenKind.NewLine) →
      ∀ (fuel : Nat), nls.length + 2 ≤ fuel →
      ∀ (cur prv : Token), cur.kind = TokenKind.NewLine →
        Compiler.compile_loop fuel
            ⟨nls ++ [e], e, Chunk.new, [], false, false, cur, prv, [], [], false⟩
          = ⟨[], e, Chunk.new, [], false, false, e, e, [], [], false⟩ := by
  intro nls
  induction nls with
  | nil =>
    intro _ fuel hf cur prv hcur
    obtain ⟨f, rfl⟩ : ∃ f, fuel = f + 2 := ⟨fuel - 2, by omega⟩
    have hne : ¬ cur.kind = TokenKind.Eof := by simp [hcur]
    simp [Compiler.compile_loop, Compiler.statement, Compiler.advance, Compiler.advance_loop,
      Compiler.pump, hcur, he, hne]
  | cons t rest ih =>
    intro hnl fuel hf cur prv hcur
    obtain ⟨f, rfl⟩ : ∃ f, fuel = f + 1 := ⟨fuel - 1, by omega⟩
    have hne : ¬ cur.kind = TokenKind.Eof := by simp [hcur]
    have ht : t.kind = TokenKind.NewLine := hnl t (List.mem_cons_self _ _)
    have hstmt : Compiler.statement
        ⟨t :: rest ++ [e], e, Chunk.new, [], false, false, cur, prv, [], [], false⟩
        = ⟨rest ++ [e], e, Chunk.new, [], false, false, t, cur, [], [], false⟩ := by
      simp [Compiler.statement, Compiler.advance, Compiler.advance_loop, Compiler.pump,
        hcur, ht]
    rw [compile_loop_go f _ _ hne hstmt rfl]
    exact ih (fun u hu => hnl u (List.mem_cons_of_mem _ hu)) f (by simp at hf ⊢; omega)
      t cur ht

/-- C10: interpreting the empty source, or a source of `n` newlines only,
succeeds: compilation reports no error and emits exactly one instruction,
`Halt`; the VM halts on its first fetch; and nothing is written to
stdout. -/
theorem claim_C10_theorem (n : Nat) :
    (compile_source (newlines n)).chunk.code = [Instr.Halt] ∧
    (compile_source (newlines n)).had_error = false ∧
    interpret 10 (newlines n) = .ok [] := by
  have htoks : scan_source (newlines n)
      = (List.range' 0 n).map (fun i => ⟨TokenKind.NewLine, ['\n'], i + 2⟩) ++
          [⟨TokenKind.Eof, [], n + 1⟩] := by
    show Scanner.scan_all ((newlines n).toList.length + 1) (Scanner.new (newlines n).toList) = _
    rw [show (newlines n).toList = List.replicate n '\n' from rfl]
    rw [show (List.replicate n '\n').length = n from by simp]
    exact scan_nl_aux n (n + 1) 0 0 n (by omega) (by omega)
  cases n with
  | zero => exact ⟨rfl, rfl, rfl⟩
  | succ m =>
    have hsplit : (List.range' 0 (m + 1)).map
          (fun i => (⟨TokenKind.NewLine, ['\n'], i + 2⟩ : Token)) ++
          [(⟨TokenKind.Eof, [], m + 1 + 1⟩ : Token)]
        = ⟨TokenKind.NewLine, ['\n'], 2⟩ ::
            ((List.range' 1 m).map (fun i => ⟨TokenKind.NewLine, ['\n'], i + 2⟩) ++
              [⟨TokenKind.Eof, [], m + 2⟩]) := by
      rw [List.range'_succ]
      simp
    have hcs : compile_source (newlines (m + 1)) =
        ⟨[], ⟨.Eof, [], m + 2⟩, ⟨[.Halt], [], [], [], [⟨0, m + 2⟩]⟩, [], false, false,
         ⟨.Eof, [], m + 2⟩, ⟨.Eof, [], m + 2⟩, [], [], false⟩ := by
      have hfb : eof_fallback (⟨TokenKind.NewLine, ['\n'], 2⟩ ::
            ((List.range' 1 m).map (fun i => ⟨TokenKind.NewLine, ['\n'], i + 2⟩) ++
              [⟨TokenKind.Eof, [], m + 2⟩]))
          = ⟨TokenKind.Eof, [], m + 2⟩ := by
        simp only [eof_fallback, ← List.cons_append, List.getLast?_concat]
        rfl
      unfold compile_source
      dsimp only
      rw [htoks, hsplit, hfb]
      unfold Compiler.run_compiler
      dsimp only
      have hadv : Compiler.advance (Compiler.init_state
            (⟨TokenKind.NewLine, ['\n'], 2⟩ ::
              ((List.range' 1 m).map (fun i => ⟨TokenKind.NewLine, ['\n'], i + 2⟩) ++
                [⟨TokenKind.Eof, [], m + 2⟩])) ⟨TokenKind.Eof, [], m + 2⟩)
          = ⟨(List.range' 1 m).map (fun i => ⟨TokenKind.NewLine, ['\n'], i + 2⟩) ++
              [⟨TokenKind.Eof, [], m + 2⟩], ⟨TokenKind.Eof, [], m + 2⟩, Chunk.new, [],
             false, false, ⟨TokenKind.NewLine, ['\n'], 2⟩, Token.synthetic, [], [], false⟩ := by
        simp [Compiler.init_state, Compiler.advance, Compiler.advance_loop, Compiler.pump]
      rw [hadv]
      rw [compile_loop_nl ⟨TokenKind.Eof, [], m + 2⟩ rfl
        ((List.range' 1 m).map (fun i => ⟨TokenKind.NewLine, ['\n'], i + 2⟩))
        (by intro u hu; rcases List.mem_map.mp hu with ⟨i, _, rfl⟩; rfl)
        _ (by simp only [List.length_cons, List.length_append, List.length_map,
            List.length_nil]; omega) _ _ rfl]
      rfl
    refine ⟨?_, ?_, ?_⟩
    · rw [hcs]
    · rw [hcs]
    · unfold interpret
      rw [hcs]
      rfl

/-- Witness for `claim_C10_theorem` at `n = 3`. -/
theorem claim_C10_witness : interpret 10 (newlines 3) = .ok [] :=
  (claim_C10_theorem 3).2.2


end TAC
